import Mathlib

set_option maxRecDepth 100000

/-!
Verification development for the `prelim2` block-cipher toolkit
(tridims/comparison-lwc-algorithms).

Blocks are modelled as natural numbers of a stated bit width, mirroring the
source's big-endian byte-sequence representation (`int.from_bytes(…, 'big')`
/ `to_bytes(…, 'big')` round-trips exactly when the value fits the stated
width, which holds at every call site modelled here).  At the mode layer,
messages are modelled as lists of byte values.
-/

/-- Core of the permutation boxes (`StraightPBox.encrypt`,
`ExpansionPBox.encrypt`, `CompressionPBox.encrypt` in
`src/prelim2/cipher/components/permutation`): for each `index, position` in
the table, output bit `n - index - 1` is set iff input bit
`w - position - 1` is set, where `n` is the table length and `w` the input
width.  The parameter `i` is the running index of the enumeration. -/
def permuteAux (w : Nat) (x : Nat) (n : Nat) : Nat → List Nat → Nat
  | _, [] => 0
  | i, p :: rest =>
    (if Nat.testBit x (w - p - 1) then 1 <<< (n - i - 1) else 0) |||
      permuteAux w x n (i + 1) rest

/-- Permutation-box application: output has `table.length` bits. -/
def permuteBits (table : List Nat) (w : Nat) (x : Nat) : Nat :=
  permuteAux w x table.length 0 table

theorem permuteAux_lt (w x n : Nat) :
    ∀ (i : Nat) (l : List Nat), i + l.length ≤ n → permuteAux w x n i l < 2 ^ (n - i)
  | i, [], _ => by simpa [permuteAux] using Nat.pos_pow_of_pos (n - i) (by norm_num)
  | i, p :: rest, h => by
    have hrest : permuteAux w x n (i + 1) rest < 2 ^ (n - (i + 1)) :=
      permuteAux_lt w x n (i + 1) rest (by simp at h; omega)
    have hrest' : permuteAux w x n (i + 1) rest < 2 ^ (n - i) :=
      lt_of_lt_of_le hrest (Nat.pow_le_pow_right (by norm_num) (by omega))
    have hbit : (if Nat.testBit x (w - p - 1) then 1 <<< (n - i - 1) else 0) < 2 ^ (n - i) := by
      by_cases hc : Nat.testBit x (w - p - 1)
      · have hlen : rest.length + 1 = (p :: rest).length := by simp
        simp only [hc, if_true, Nat.shiftLeft_eq, one_mul]
        exact Nat.pow_lt_pow_right (by norm_num) (by simp at h; omega)
      · simpa [hc] using Nat.pos_pow_of_pos (n - i) (by norm_num)
    exact Nat.or_lt_two_pow hbit hrest'

theorem permuteAux_testBit_hi (w x n i : Nat) (l : List Nat) (h : i + l.length ≤ n)
    (j : Nat) (hj : n - i ≤ j) : (permuteAux w x n i l).testBit j = false :=
  Nat.testBit_lt_two_pow
    (lt_of_lt_of_le (permuteAux_lt w x n i l h) (Nat.pow_le_pow_right (by norm_num) hj))

theorem permuteAux_testBit (w x n : Nat) :
    ∀ (i : Nat) (l : List Nat) (k : Nat) (hk : k < l.length), i + l.length ≤ n →
      (permuteAux w x n i l).testBit (n - (i + k) - 1) =
        x.testBit (w - l.get ⟨k, hk⟩ - 1)
  | i, [], k, hk, _ => by simp at hk
  | i, p :: rest, 0, hk, h => by
    have hlen : i + (rest.length + 1) ≤ n := by simpa using h
    have htail : (permuteAux w x n (i + 1) rest).testBit (n - (i + 0) - 1) = false := by
      refine permuteAux_testBit_hi w x n (i + 1) rest (by omega) _ (by omega)
    simp only [permuteAux, Nat.testBit_or, htail, Bool.or_false]
    by_cases hc : Nat.testBit x (w - p - 1)
    · simp [hc, Nat.testBit_shiftLeft, Nat.add_zero]
    · simp [hc]
  | i, p :: rest, k + 1, hk, h => by
    have hlen : i + (rest.length + 1) ≤ n := by simpa using h
    have hk' : k < rest.length := by simpa using hk
    have hhead :
        (if Nat.testBit x (w - p - 1) then 1 <<< (n - i - 1) else 0).testBit
          (n - (i + (k + 1)) - 1) = false := by
      by_cases hc : Nat.testBit x (w - p - 1)
      · have : n - (i + (k + 1)) - 1 < n - i - 1 := by omega
        simp [hc, Nat.testBit_shiftLeft, Nat.not_le.mpr this]
      · simp [hc]
    have htail := permuteAux_testBit w x n (i + 1) rest k hk' (by omega)
    have harith : n - (i + 1 + k) - 1 = n - (i + (k + 1)) - 1 := by omega
    simp only [permuteAux, Nat.testBit_or, hhead, Bool.false_or]
    rw [← harith, htail]
    rfl

theorem permuteBits_lt (t : List Nat) (w x : Nat) : permuteBits t w x < 2 ^ t.length := by
  simpa using permuteAux_lt w x t.length 0 t (by simp)

theorem permuteBits_testBit (t : List Nat) (w x k : Nat) (hk : k < t.length) :
    (permuteBits t w x).testBit (t.length - k - 1) = x.testBit (w - t.get ⟨k, hk⟩ - 1) := by
  simpa using permuteAux_testBit w x t.length 0 t k hk (by simp)

/-- Inverse lookup table as built in `StraightPBox.__init__` and
`ExpansionPBox.__init__`: start from `list(range(size))` and overwrite the
entry at each table position with its index (a later occurrence of the same
position wins). -/
def invertTable (t : List Nat) (size : Nat) : List Nat :=
  t.enum.foldl (fun acc ip => acc.set ip.2 ip.1) (List.range size)

theorem foldlSet_length (l : List (Nat × Nat)) (acc : List Nat) :
    (l.foldl (fun a ip => a.set ip.2 ip.1) acc).length = acc.length := by
  induction l generalizing acc with
  | nil => rfl
  | cons ip rest ih => simpa [List.foldl] using ih (acc.set ip.2 ip.1)

theorem invertTable_length (t : List Nat) (size : Nat) :
    (invertTable t size).length = size := by
  simpa [invertTable] using foldlSet_length t.enum (List.range size)

theorem foldlSet_get_of_not_mem (l : List (Nat × Nat)) (acc : List Nat) (p : Nat)
    (hnone : ∀ ip ∈ l, ip.2 ≠ p) :
    (l.foldl (fun a ip => a.set ip.2 ip.1) acc).get? p = acc.get? p := by
  induction l generalizing acc with
  | nil => rfl
  | cons ip rest ih =>
    have hne : ip.2 ≠ p := hnone ip (by simp)
    have hrest : ∀ q ∈ rest, q.2 ≠ p := fun q hq => hnone q (by simp [hq])
    rw [List.foldl_cons, ih (acc.set ip.2 ip.1) hrest, List.get?_set_ne _ _ hne]

theorem foldlSet_get_of_mem (l : List (Nat × Nat)) (acc : List Nat) (p : Nat)
    (hp : p < acc.length) (hmem : ∃ ip ∈ l, ip.2 = p) :
    ∃ ip ∈ l, ip.2 = p ∧
      (l.foldl (fun a ip => a.set ip.2 ip.1) acc).get? p = some ip.1 := by
  induction l generalizing acc with
  | nil => simp at hmem
  | cons ip rest ih =>
    by_cases hrest : ∃ q ∈ rest, q.2 = p
    · obtain ⟨q, hq, hq2, hval⟩ := ih (acc.set ip.2 ip.1) (by simpa using hp) hrest
      exact ⟨q, by simp [hq], hq2, by simpa [List.foldl_cons] using hval⟩
    · have hip : ip.2 = p := by
        obtain ⟨q, hq, hq2⟩ := hmem
        rcases List.mem_cons.mp hq with h | h
        · exact h ▸ hq2
        · exact absurd ⟨q, h, hq2⟩ hrest
      refine ⟨ip, by simp, hip, ?_⟩
      push_neg at hrest
      rw [List.foldl_cons, foldlSet_get_of_not_mem rest _ p hrest, hip,
        List.get?_eq_getElem?, List.getElem?_set_self (hip ▸ hp)]

theorem invertTable_spec (t : List Nat) (s p : Nat) (hp : p < s) (hmem : p ∈ t) :
    ∃ i, ∃ hi : i < t.length,
      (invertTable t s).get? p = some i ∧ t.get ⟨i, hi⟩ = p := by
  obtain ⟨i, hval⟩ := List.mem_iff_get?.mp hmem
  have hpair : ∃ ip ∈ t.enum, ip.2 = p := by
    refine ⟨(i, p), ?_, rfl⟩
    exact List.mk_mem_enum_iff_get?.mpr hval
  obtain ⟨ip, hmem', hip2, hgot⟩ :=
    foldlSet_get_of_mem t.enum (List.range s) p (by simpa using hp) hpair
  have hsrc : t.get? ip.1 = some ip.2 := List.mem_enum_iff_get?.mp hmem'
  have hlt : ip.1 < t.length := by
    rcases List.get?_eq_some.mp hsrc with ⟨h, _⟩
    exact h
  refine ⟨ip.1, hlt, hgot, ?_⟩
  rcases List.get?_eq_some.mp hsrc with ⟨h, hv⟩
  rw [hv, hip2]

theorem permute_inverse (t : List Nat) (s : Nat) (x : Nat)
    (hcover : ∀ p, p < s → p ∈ t) (hbound : ∀ p ∈ t, p < s) (hx : x < 2 ^ s) :
    permuteBits (invertTable t s) t.length (permuteBits t s x) = x := by
  have hinvlen : (invertTable t s).length = s := invertTable_length t s
  apply Nat.eq_of_testBit_eq
  intro j
  by_cases hj : j < s
  · set k := s - 1 - j with hkdef
    have hks : k < s := by omega
    have hk' : k < (invertTable t s).length := by omega
    have hstep1 := permuteBits_testBit (invertTable t s) t.length (permuteBits t s x) k hk'
    have hjk : (invertTable t s).length - k - 1 = j := by omega
    rw [hjk] at hstep1
    obtain ⟨i, hi, hget, hti⟩ := invertTable_spec t s k hks (hcover k hks)
    have hgetk : (invertTable t s).get ⟨k, hk'⟩ = i := by
      have := List.get?_eq_get hk'
      rw [this] at hget
      exact Option.some.inj hget
    rw [hstep1, hgetk]
    have hstep2 := permuteBits_testBit t s x i hi
    rw [hti] at hstep2
    have hsk : s - k - 1 = j := by omega
    rw [hsk] at hstep2
    exact hstep2
  · have hL : (permuteBits (invertTable t s) t.length (permuteBits t s x)).testBit j = false := by
      apply Nat.testBit_lt_two_pow
      calc permuteBits (invertTable t s) t.length (permuteBits t s x)
          < 2 ^ (invertTable t s).length := permuteBits_lt _ _ _
        _ = 2 ^ s := by rw [hinvlen]
        _ ≤ 2 ^ j := Nat.pow_le_pow_right (by norm_num) (by omega)
    have hR : x.testBit j = false := by
      apply Nat.testBit_lt_two_pow
      exact lt_of_lt_of_le hx (Nat.pow_le_pow_right (by norm_num) (by omega))
    rw [hL, hR]

/-! DES (src/prelim2/cipher/des.py).  Tables are stored exactly as in the
source; the P-box constructors subtract the start offset 1, done here with
`List.map`. -/

/-- Table of INITIAL_PERMUTATION_BOX, adjusted by start = 1. -/
def desIPTable : List Nat :=
  [58, 50, 42, 34, 26, 18, 10, 2,
   60, 52, 44, 36, 28, 20, 12, 4,
   62, 54, 46, 38, 30, 22, 14, 6,
   64, 56, 48, 40, 32, 24, 16, 8,
   57, 49, 41, 33, 25, 17, 9, 1,
   59, 51, 43, 35, 27, 19, 11, 3,
   61, 53, 45, 37, 29, 21, 13, 5,
   63, 55, 47, 39, 31, 23, 15, 7].map (fun p => p - 1)

/-- Table of IN_ROUND_EXPANSION_PBOX, adjusted by start = 1. -/
def desExpTable : List Nat :=
  [32, 1, 2, 3, 4, 5,
   4, 5, 6, 7, 8, 9,
   8, 9, 10, 11, 12, 13,
   12, 13, 14, 15, 16, 17,
   16, 17, 18, 19, 20, 21,
   20, 21, 22, 23, 24, 25,
   24, 25, 26, 27, 28, 29,
   28, 29, 30, 31, 32, 1].map (fun p => p - 1)

/-- Substitution tables of IN_ROUND_SUBSTITUTION_BOXES (S1 .. S8). -/
def desSubstTables : List (List (List Nat)) :=
  [[[14, 4, 13, 1, 2, 15, 11, 8, 3, 10, 6, 12, 5, 9, 0, 7],
    [0, 15, 7, 4, 14, 2, 13, 1, 10, 6, 12, 11, 9, 5, 3, 8],
    [4, 1, 14, 8, 13, 6, 2, 11, 15, 12, 9, 7, 3, 10, 5, 0],
    [15, 12, 8, 2, 4, 9, 1, 7, 5, 11, 3, 14, 10, 0, 6, 13]],
   [[15, 1, 8, 14, 6, 11, 3, 4, 9, 7, 2, 13, 12, 0, 5, 10],
    [3, 13, 4, 7, 15, 2, 8, 14, 12, 0, 1, 10, 6, 9, 11, 5],
    [0, 14, 7, 11, 10, 4, 13, 1, 5, 8, 12, 6, 9, 3, 2, 15],
    [13, 8, 10, 1, 3, 15, 4, 2, 11, 6, 7, 12, 0, 5, 14, 9]],
   [[10, 0, 9, 14, 6, 3, 15, 5, 1, 13, 12, 7, 11, 4, 2, 8],
    [13, 7, 0, 9, 3, 4, 6, 10, 2, 8, 5, 14, 12, 11, 15, 1],
    [13, 6, 4, 9, 8, 15, 3, 0, 11, 1, 2, 12, 5, 10, 14, 7],
    [1, 10, 13, 0, 6, 9, 8, 7, 4, 15, 14, 3, 11, 5, 2, 12]],
   [[7, 13, 14, 3, 0, 6, 9, 10, 1, 2, 8, 5, 11, 12, 4, 15],
    [13, 8, 11, 5, 6, 15, 0, 3, 4, 7, 2, 12, 1, 10, 14, 9],
    [10, 6, 9, 0, 12, 11, 7, 13, 15, 1, 3, 14, 5, 2, 8, 4],
    [3, 15, 0, 6, 10, 1, 13, 8, 9, 4, 5, 11, 12, 7, 2, 14]],
   [[2, 12, 4, 1, 7, 10, 11, 6, 8, 5, 3, 15, 13, 0, 14, 9],
    [14, 11, 2, 12, 4, 7, 13, 1, 5, 0, 15, 10, 3, 9, 8, 6],
    [4, 2, 1, 11, 10, 13, 7, 8, 15, 9, 12, 5, 6, 3, 0, 14],
    [11, 8, 12, 7, 1, 14, 2, 13, 6, 15, 0, 9, 10, 4, 5, 3]],
   [[12, 1, 10, 15, 9, 2, 6, 8, 0, 13, 3, 4, 14, 7, 5, 11],
    [10, 15, 4, 2, 7, 12, 9, 5, 6, 1, 13, 14, 0, 11, 3, 8],
    [9, 14, 15, 5, 2, 8, 12, 3, 7, 0, 4, 10, 1, 13, 11, 6],
    [4, 3, 2, 12, 9, 5, 15, 10, 11, 14, 1, 7, 6, 0, 8, 13]],
   [[4, 11, 2, 14, 15, 0, 8, 13, 3, 12, 9, 7, 5, 10, 6, 1],
    [13, 0, 11, 7, 4, 9, 1, 10, 14, 3, 5, 12, 2, 15, 8, 6],
    [1, 4, 11, 13, 12, 3, 7, 14, 10, 15, 6, 8, 0, 5, 9, 2],
    [6, 11, 13, 8, 1, 4, 10, 7, 9, 5, 0, 15, 14, 2, 3, 12]],
   [[13, 2, 8, 4, 6, 15, 11, 1, 10, 9, 3, 14, 5, 0, 12, 7],
    [1, 15, 13, 8, 10, 3, 7, 4, 12, 5, 6, 11, 0, 14, 9, 2],
    [7, 11, 4, 1, 9, 12, 14, 2, 0, 6, 10, 13, 15, 3, 5, 8],
    [2, 1, 14, 7, 4, 10, 8, 13, 15, 12, 9, 0, 3, 5, 6, 11]]]

/-- Table of IN_ROUND_STRAIGHT_PBOX, adjusted by start = 1. -/
def desPTable : List Nat :=
  [16, 7, 20, 21,
   29, 12, 28, 17,
   1, 15, 23, 26,
   5, 18, 31, 10,
   2, 8, 24, 14,
   32, 27, 3, 9,
   19, 13, 30, 6,
   22, 11, 4, 25].map (fun p => p - 1)

/-- KEY_SHIFT_SCHEDULE. -/
def desKeyShifts : List Nat := [1, 1, 2, 2, 2, 2, 2, 2, 1, 2, 2, 2, 2, 2, 2, 1]

/-- Table of INITIAL_KEY_PERMUTED_CHOICE_BOX (PC-1), adjusted by start = 1. -/
def desPC1Table : List Nat :=
  [57, 49, 41, 33, 25, 17, 9,
   1, 58, 50, 42, 34, 26, 18,
   10, 2, 59, 51, 43, 35, 27,
   19, 11, 3, 60, 52, 44, 36,
   63, 55, 47, 39, 31, 23, 15,
   7, 62, 54, 46, 38, 30, 22,
   14, 6, 61, 53, 45, 37, 29,
   21, 13, 5, 28, 20, 12, 4].map (fun p => p - 1)

/-- Table of IN_ROUND_KEY_PERMUTED_CHOICE_BOX (PC-2), adjusted by start = 1. -/
def desPC2Table : List Nat :=
  [14, 17, 11, 24, 1, 5,
   3, 28, 15, 6, 21, 10,
   23, 19, 12, 4, 26, 8,
   16, 7, 27, 20, 13, 2,
   41, 52, 31, 37, 47, 55,
   30, 40, 51, 45, 33, 48,
   44, 49, 39, 56, 34, 53,
   46, 42, 50, 36, 29, 32].map (fun p => p - 1)

/-- Index mapping of `cell_index` in des.py: row from bits 5 and 0, column
from the middle four bits of a 6-bit chunk. -/
def cellIndex (d : Nat) : Nat × Nat :=
  ((((d >>> 5) &&& 1) <<< 1) ||| (d &&& 1), (d >>> 1) &&& 0xf)

/-- One `SBox.encrypt`: table value at `cell_index` of the data. -/
def sboxApply (tbl : List (List Nat)) (d : Nat) : Nat :=
  (tbl.getD (cellIndex d).1 []).getD (cellIndex d).2 0

/-- IN_ROUND_SUBSTITUTION_BOXES as a HorizontalPipeline: split the 48-bit
input into eight 6-bit chunks (`n_ary_split`, high chunk first), apply the
i-th S-box, and rejoin the 4-bit outputs (`n_ary_join`). -/
def desSBoxStage (x : Nat) : Nat :=
  (List.range 8).foldl
    (fun acc i =>
      (acc <<< 4) ||| sboxApply (desSubstTables.getD i []) ((x >>> (6 * (7 - i))) &&& 63))
    0

/-- Feistel function F: the ORIGINAL-order round Pipeline of des.py minus
its final `XorKey(left_subblock)` stage, so F(k, r) = P(S(E(r) xor k)). -/
def desF (k r : Nat) : Nat :=
  permuteBits desPTable 32 (desSBoxStage ((permuteBits desExpTable 32 r) ^^^ k))

/-- One Feistel round over the pair (left, right): the new right half is
the round Pipeline output F(k, right) xor left, and the new left half is
the previous right half. -/
def desRound (k : Nat) (lr : Nat × Nat) : Nat × Nat :=
  (lr.2, desF k lr.2 ^^^ lr.1)

/-- Sixteen Feistel rounds are a fold of `desRound` over the round keys. -/
def desRounds (ks : List Nat) (lr : Nat × Nat) : Nat × Nat :=
  ks.foldl (fun lr k => desRound k lr) lr

/-- Translation of `utils.circular_shift_left` on a value held in a stated
bit width: the Python expression `data_bits & ~shift_mask` is written here
as `x ^^^ (x &&& mask)`, which agrees with it on all naturals. -/
def circularShiftLeft (x s len : Nat) : Nat :=
  let s := s % len
  let mask := ((1 <<< s) - 1) <<< (len - s)
  ((x ^^^ (x &&& mask)) <<< s) ||| ((x &&& mask) >>> (len - s))

/-- Translation of `generate_round_keys` (des.py): PC-1, split into 28-bit
halves, rotate per `KEY_SHIFT_SCHEDULE` and emit the PC-2 compression of
the rejoined halves at each round. -/
def generateRoundKeys (key : Nat) : List Nat :=
  let k56 := permuteBits desPC1Table 64 key
  let st := desKeyShifts.foldl
    (fun st s =>
      let kl := circularShiftLeft st.1 s 28
      let kr := circularShiftLeft st.2.1 s 28
      (kl, kr, st.2.2 ++ [permuteBits desPC2Table 56 ((kl <<< 28) ||| kr)]))
    (k56 >>> 28, k56 &&& ((1 <<< 28) - 1), ([] : List Nat))
  st.2.2

/-- Translation of `DES.encrypt`: initial permutation, split, 16 Feistel
rounds, swap-and-join, final permutation via the cached inverse table of
the initial permutation box. -/
def DES_encrypt (rks : List Nat) (x : Nat) : Nat :=
  let ip := permuteBits desIPTable 64 x
  let lr := desRounds rks (ip >>> 32, ip &&& ((1 <<< 32) - 1))
  permuteBits (invertTable desIPTable 64) 64 ((lr.2 <<< 32) ||| lr.1)

/-- Translation of `DES.decrypt`: the same algorithm with the round keys
consumed in reverse order (`round_keys[ROUND_COUNT - round - 1]`). -/
def DES_decrypt (rks : List Nat) (x : Nat) : Nat :=
  let ip := permuteBits desIPTable 64 x
  let lr := desRounds rks.reverse (ip >>> 32, ip &&& ((1 <<< 32) - 1))
  permuteBits (invertTable desIPTable 64) 64 ((lr.2 <<< 32) ||| lr.1)

theorem lor_shift_eq_add (a b k : Nat) (hb : b < 2 ^ k) :
    (a <<< k) ||| b = a * 2 ^ k + b := by
  apply Nat.eq_of_testBit_eq
  intro j
  have hadd := Nat.testBit_mul_pow_two_add a hb j
  rw [Nat.mul_comm] at hadd
  rw [hadd, Nat.testBit_or, Nat.testBit_shiftLeft]
  by_cases hj : j < k
  · have hb' : b < 2 ^ k := hb
    simp [Nat.not_le.mpr hj, hj]
  · have hbf : b.testBit j = false :=
      Nat.testBit_lt_two_pow
        (lt_of_lt_of_le hb (Nat.pow_le_pow_right (by norm_num) (by omega)))
    simp [Nat.le_of_not_lt, hj, hbf, Nat.not_lt.mp hj]

theorem lor_shift_shiftRight (a b k : Nat) (hb : b < 2 ^ k) :
    ((a <<< k) ||| b) >>> k = a := by
  rw [lor_shift_eq_add a b k hb, Nat.shiftRight_eq_div_pow, Nat.mul_comm,
    Nat.mul_add_div (Nat.pos_pow_of_pos k (by norm_num)), Nat.div_eq_of_lt hb,
    Nat.add_zero]

theorem lor_shift_and (a b k : Nat) (hb : b < 2 ^ k) :
    ((a <<< k) ||| b) &&& ((1 <<< k) - 1) = b := by
  have h1 : (1 : Nat) <<< k = 2 ^ k := by rw [Nat.shiftLeft_eq, Nat.one_mul]
  rw [lor_shift_eq_add a b k hb, h1, Nat.and_pow_two_sub_one_eq_mod,
    Nat.mul_comm, Nat.mul_add_mod, Nat.mod_eq_of_lt hb]

theorem desF_lt (k r : Nat) : desF k r < 2 ^ 32 := by
  have h := permuteBits_lt desPTable 32 (desSBoxStage ((permuteBits desExpTable 32 r) ^^^ k))
  have hlen : desPTable.length = 32 := by decide
  rw [hlen] at h
  exact h

theorem desRounds_lt (ks : List Nat) :
    ∀ l r : Nat, l < 2 ^ 32 → r < 2 ^ 32 →
      (desRounds ks (l, r)).1 < 2 ^ 32 ∧ (desRounds ks (l, r)).2 < 2 ^ 32 := by
  induction ks with
  | nil => intro l r hl hr; exact ⟨hl, hr⟩
  | cons k rest ih =>
    intro l r hl hr
    have hstep : desRounds (k :: rest) (l, r) = desRounds rest (r, desF k r ^^^ l) := rfl
    rw [hstep]
    exact ih r (desF k r ^^^ l) hr (Nat.xor_lt_two_pow (desF_lt k r) hl)

theorem desRounds_reverse (ks : List Nat) :
    ∀ l r : Nat,
      desRounds ks.reverse ((desRounds ks (l, r)).2, (desRounds ks (l, r)).1) = (r, l) := by
  induction ks with
  | nil => intro l r; rfl
  | cons k rest ih =>
    intro l r
    have hrev : (k :: rest).reverse = rest.reverse ++ [k] := by simp
    have hfold : ∀ z : Nat × Nat,
        desRounds (rest.reverse ++ [k]) z = desRound k (desRounds rest.reverse z) := by
      intro z
      simp [desRounds, List.foldl_append]
    have hstep : desRounds (k :: rest) (l, r) = desRounds rest (r, desF k r ^^^ l) := rfl
    rw [hrev, hfold, hstep, ih r (desF k r ^^^ l)]
    show (r, desF k r ^^^ (desF k r ^^^ l)) = (r, l)
    rw [← Nat.xor_assoc, Nat.xor_self, Nat.zero_xor]

theorem desIPTable_cover : ∀ p, p < 64 → p ∈ desIPTable := by decide

theorem desIPTable_bound : ∀ p ∈ desIPTable, p < 64 := by decide

theorem desIPTable_double_inverse :
    invertTable (invertTable desIPTable 64) 64 = desIPTable := by decide

theorem desInvIPTable_cover : ∀ p, p < 64 → p ∈ invertTable desIPTable 64 := by decide

theorem desInvIPTable_bound : ∀ p ∈ invertTable desIPTable 64, p < 64 := by decide

theorem desIP_then_inverse (z : Nat) (hz : z < 2 ^ 64) :
    permuteBits (invertTable desIPTable 64) 64 (permuteBits desIPTable 64 z) = z := by
  have h := permute_inverse desIPTable 64 z desIPTable_cover desIPTable_bound hz
  have hlen : desIPTable.length = 64 := by decide
  rw [hlen] at h
  exact h

theorem desInverse_then_IP (z : Nat) (hz : z < 2 ^ 64) :
    permuteBits desIPTable 64 (permuteBits (invertTable desIPTable 64) 64 z) = z := by
  have h := permute_inverse (invertTable desIPTable 64) 64 z
    desInvIPTable_cover desInvIPTable_bound hz
  rw [desIPTable_double_inverse, invertTable_length] at h
  exact h

/-- C1: for every 64-bit key and every 64-bit block x,
`DES.decrypt(DES.encrypt(x)) == x`: the 16-round Feistel structure with the
round keys consumed in reverse order during decryption inverts encryption,
even though the per-round pipeline is itself non-invertible. -/
theorem DES_decrypt_encrypt (key x : Nat) (hkey : key < 2 ^ 64) (hx : x < 2 ^ 64) :
    DES_decrypt (generateRoundKeys key) (DES_encrypt (generateRoundKeys key) x) = x := by
  have hone : (1 : Nat) <<< 32 = 2 ^ 32 := by rw [Nat.shiftLeft_eq, Nat.one_mul]
  set rks := generateRoundKeys key with hrks
  set ip := permuteBits desIPTable 64 x with hip
  set l0 := ip >>> 32 with hl0
  set r0 := ip &&& ((1 <<< 32) - 1) with hr0
  set lr := desRounds rks (l0, r0) with hlr
  have hiplt : ip < 2 ^ 64 := by
    have h := permuteBits_lt desIPTable 64 x
    have hlen : desIPTable.length = 64 := by decide
    rw [hlen] at h
    exact h
  have hl0lt : l0 < 2 ^ 32 := by
    rw [hl0, Nat.shiftRight_eq_div_pow]
    exact Nat.div_lt_of_lt_mul (by norm_num at hiplt ⊢; omega)
  have hr0lt : r0 < 2 ^ 32 := by
    rw [hr0, hone, Nat.and_pow_two_sub_one_eq_mod]
    exact Nat.mod_lt _ (by norm_num)
  obtain ⟨hlr1, hlr2⟩ := desRounds_lt rks l0 r0 hl0lt hr0lt
  rw [← hlr] at hlr1 hlr2
  have hjoinlt : (lr.2 <<< 32) ||| lr.1 < 2 ^ 64 := by
    rw [lor_shift_eq_add _ _ _ hlr1]
    calc lr.2 * 2 ^ 32 + lr.1 < lr.2 * 2 ^ 32 + 2 ^ 32 := by omega
      _ = (lr.2 + 1) * 2 ^ 32 := by ring
      _ ≤ 2 ^ 32 * 2 ^ 32 := Nat.mul_le_mul_right _ (by omega)
      _ = 2 ^ 64 := by norm_num
  have henc : DES_encrypt rks x =
      permuteBits (invertTable desIPTable 64) 64 ((lr.2 <<< 32) ||| lr.1) := rfl
  have hdec : ∀ y : Nat, DES_decrypt rks y =
      permuteBits (invertTable desIPTable 64) 64
        (((desRounds rks.reverse (permuteBits desIPTable 64 y >>> 32,
            permuteBits desIPTable 64 y &&& ((1 <<< 32) - 1))).2 <<< 32) |||
          (desRounds rks.reverse (permuteBits desIPTable 64 y >>> 32,
            permuteBits desIPTable 64 y &&& ((1 <<< 32) - 1))).1) := fun _ => rfl
  rw [henc, hdec, desInverse_then_IP _ hjoinlt,
    lor_shift_shiftRight _ _ _ hlr1, lor_shift_and _ _ _ hlr1]
  have hpair : ((lr.2 : Nat), (lr.1 : Nat)) =
      ((desRounds rks (l0, r0)).2, (desRounds rks (l0, r0)).1) := by rw [← hlr]
  rw [hpair, desRounds_reverse rks l0 r0]
  have hsplit : (l0 <<< 32) ||| r0 = ip := by
    rw [lor_shift_eq_add _ _ _ hr0lt, hl0, hr0, Nat.shiftRight_eq_div_pow,
      hone, Nat.and_pow_two_sub_one_eq_mod, Nat.mul_comm]
    exact Nat.div_add_mod ip (2 ^ 32)
  show permuteBits (invertTable desIPTable 64) 64 ((l0 <<< 32) ||| r0) = x
  rw [hsplit, hip, desIP_then_inverse x hx]

/-- Witness for C1 at a concrete key and block. -/
theorem DES_decrypt_encrypt_witness :
    DES_decrypt (generateRoundKeys 0x133457799BBCDFF1)
      (DES_encrypt (generateRoundKeys 0x133457799BBCDFF1) 0x0123456789ABCDEF) =
      0x0123456789ABCDEF :=
  DES_decrypt_encrypt 0x133457799BBCDFF1 0x0123456789ABCDEF (by norm_num) (by norm_num)

/-! TripleDES (src/prelim2/cipher/des.py) built on the Pipeline combinator
(src/prelim2/cipher/components/transforms/pipeline.py). -/

/-- Translation of `Pipeline.encrypt`: the stages are applied in list
order, the output of one being the input of the next. -/
def pipelineEncrypt (stages : List (Nat → Nat)) (x : Nat) : Nat :=
  stages.foldl (fun acc c => c acc) x

/-- Translation of `Pipeline.decrypt` with `Order.NATURAL`: the decrypt
operations of the stages are applied in reversed list order. -/
def pipelineDecryptNatural (stages : List (Nat → Nat)) (x : Nat) : Nat :=
  stages.reverse.foldl (fun acc c => c acc) x

/-- Translation of `TripleDES.__init__` and `TripleDES.encrypt`: the key is
split into two 64-bit DES keys (`key[:8]` and `key[8:]`) and the cipher is
the Pipeline `[des_1, des_2, des_1]`. -/
def TripleDES_encrypt (key x : Nat) : Nat :=
  pipelineEncrypt
    [DES_encrypt (generateRoundKeys (key >>> 64)),
     DES_encrypt (generateRoundKeys (key &&& ((1 <<< 64) - 1))),
     DES_encrypt (generateRoundKeys (key >>> 64))] x

/-- Translation of `TripleDES.decrypt`: NATURAL-order Pipeline decryption,
i.e. the DES decrypts of `[des_1, des_2, des_1]` in reversed list order. -/
def TripleDES_decrypt (key x : Nat) : Nat :=
  pipelineDecryptNatural
    [DES_decrypt (generateRoundKeys (key >>> 64)),
     DES_decrypt (generateRoundKeys (key &&& ((1 <<< 64) - 1))),
     DES_decrypt (generateRoundKeys (key >>> 64))] x

theorem DES_encrypt_lt (rks : List Nat) (x : Nat) : DES_encrypt rks x < 2 ^ 64 := by
  have h : ∀ z, permuteBits (invertTable desIPTable 64) 64 z < 2 ^ 64 := by
    intro z
    have hz := permuteBits_lt (invertTable desIPTable 64) 64 z
    rwa [invertTable_length] at hz
  have heq : DES_encrypt rks x =
      permuteBits (invertTable desIPTable 64) 64
        (((desRounds rks (permuteBits desIPTable 64 x >>> 32,
            permuteBits desIPTable 64 x &&& ((1 <<< 32) - 1))).2 <<< 32) |||
          (desRounds rks (permuteBits desIPTable 64 x >>> 32,
            permuteBits desIPTable 64 x &&& ((1 <<< 32) - 1))).1) := rfl
  rw [heq]
  exact h _

/-- Pipeline of three stages applied in order (stages abstract, so the
equation is a pure unfolding of the fold). -/
theorem pipelineEncrypt_three (a b c : Nat → Nat) (x : Nat) :
    pipelineEncrypt [a, b, c] x = c (b (a x)) := rfl

/-- NATURAL-order decryption of a three-stage pipeline applies the stages
in reversed list order. -/
theorem pipelineDecryptNatural_three (a b c : Nat → Nat) (x : Nat) :
    pipelineDecryptNatural [a, b, c] x = a (b (c x)) := rfl

/-- C4: for every 128-bit key K = K1 || K2 and every 64-bit block x,
`TripleDES.encrypt(x)` equals three DES encryptions (EEE, not E-D-E)
`DES(K1).encrypt(DES(K2).encrypt(DES(K1).encrypt(x)))`, and
`TripleDES.decrypt` inverts this composition. -/
theorem TripleDES_eee_and_inverts (key x : Nat) (hkey : key < 2 ^ 128) (hx : x < 2 ^ 64) :
    TripleDES_encrypt key x =
      DES_encrypt (generateRoundKeys (key >>> 64))
        (DES_encrypt (generateRoundKeys (key &&& ((1 <<< 64) - 1)))
          (DES_encrypt (generateRoundKeys (key >>> 64)) x)) ∧
    TripleDES_decrypt key (TripleDES_encrypt key x) = x := by
  have hone : (1 : Nat) <<< 64 = 2 ^ 64 := by rw [Nat.shiftLeft_eq, Nat.one_mul]
  have hk1 : key >>> 64 < 2 ^ 64 := by
    rw [Nat.shiftRight_eq_div_pow]
    exact Nat.div_lt_of_lt_mul (by norm_num at hkey ⊢; omega)
  have hk2 : key &&& ((1 <<< 64) - 1) < 2 ^ 64 := by
    rw [hone, Nat.and_pow_two_sub_one_eq_mod]
    exact Nat.mod_lt _ (by norm_num)
  set E1 := DES_encrypt (generateRoundKeys (key >>> 64)) with hE1
  set E2 := DES_encrypt (generateRoundKeys (key &&& ((1 <<< 64) - 1))) with hE2
  set D1 := DES_decrypt (generateRoundKeys (key >>> 64)) with hD1
  set D2 := DES_decrypt (generateRoundKeys (key &&& ((1 <<< 64) - 1))) with hD2
  have henc : ∀ y : Nat, TripleDES_encrypt key y = pipelineEncrypt [E1, E2, E1] y :=
    fun _ => rfl
  have hdec : ∀ y : Nat, TripleDES_decrypt key y = pipelineDecryptNatural [D1, D2, D1] y :=
    fun _ => rfl
  constructor
  · rw [henc, pipelineEncrypt_three]
  · rw [henc, hdec, pipelineEncrypt_three, pipelineDecryptNatural_three, hE1, hE2, hD1, hD2,
      DES_decrypt_encrypt (key >>> 64) _ hk1 (DES_encrypt_lt _ _),
      DES_decrypt_encrypt (key &&& ((1 <<< 64) - 1)) _ hk2 (DES_encrypt_lt _ _),
      DES_decrypt_encrypt (key >>> 64) x hk1 hx]

/-- Witness for C4 at a concrete key and block. -/
theorem TripleDES_eee_and_inverts_witness :
    TripleDES_encrypt 0x133457799BBCDFF10123456789ABCDEF 0x0123456789ABCDEF =
      DES_encrypt (generateRoundKeys (0x133457799BBCDFF10123456789ABCDEF >>> 64))
        (DES_encrypt (generateRoundKeys
            (0x133457799BBCDFF10123456789ABCDEF &&& ((1 <<< 64) - 1)))
          (DES_encrypt (generateRoundKeys (0x133457799BBCDFF10123456789ABCDEF >>> 64))
            0x0123456789ABCDEF)) ∧
    TripleDES_decrypt 0x133457799BBCDFF10123456789ABCDEF
      (TripleDES_encrypt 0x133457799BBCDFF10123456789ABCDEF 0x0123456789ABCDEF) =
      0x0123456789ABCDEF :=
  TripleDES_eee_and_inverts 0x133457799BBCDFF10123456789ABCDEF 0x0123456789ABCDEF
    (by norm_num) (by norm_num)

/-! SPECK (src/prelim2/cipher/speck.py), instantiated at block_size = 128
and key_size = 256 as in the `Speck` wrapper class: word_size = 64,
alpha_shift = 8, beta_shift = 3, mod_mask = 2^64 - 1, mod_mask_sub = 2^64. -/

/-- Modulus mask `mod_mask = 2 ** word_size - 1` for word_size = 64. -/
def speckModMask : Nat := 2 ^ 64 - 1

/-- Translation of `SpeckCipher.encrypt_round` for the 128/256
configuration: returns the pair (new_x, new_y). -/
def speck_encrypt_round (x y k : Nat) : Nat × Nat :=
  let rs_x := ((x <<< (64 - 8)) + (x >>> 8)) &&& speckModMask
  let add_sxy := (rs_x + y) &&& speckModMask
  let new_x := k ^^^ add_sxy
  let ls_y := ((y >>> (64 - 3)) + (y <<< 3)) &&& speckModMask
  (new_x, new_x ^^^ ls_y)

/-- Translation of `SpeckCipher.decrypt_round` for the 128/256
configuration.  The Python subtraction `(xor_xk - new_y) + mod_mask_sub`
may pass through a negative intermediate value, so it is computed in ℤ and
reduced mod `mod_mask_sub = 2^64` exactly as in the source. -/
def speck_decrypt_round (x y k : Nat) : Nat × Nat :=
  let xor_xy := x ^^^ y
  let new_y := ((xor_xy <<< (64 - 3)) + (xor_xy >>> 3)) &&& speckModMask
  let xor_xk := x ^^^ k
  let msub := ((((xor_xk : Int) - (new_y : Int)) + 2 ^ 64) % 2 ^ 64).toNat
  let new_x := ((msub >>> (64 - 8)) + (msub <<< 8)) &&& speckModMask
  (new_x, new_y)

theorem rotl_then_rotl (y r s : Nat) (hy : y < 2 ^ 64) (hr0 : 0 < r) (hs0 : 0 < s)
    (hrs : r + s = 64) :
    ((((y >>> s) + (y <<< r)) &&& (2 ^ 64 - 1)) >>> r +
      (((y >>> s) + (y <<< r)) &&& (2 ^ 64 - 1)) <<< s) &&& (2 ^ 64 - 1) = y := by
  have hsr : s + r = 64 := by omega
  have hpow : (2 : Nat) ^ s * 2 ^ r = 2 ^ 64 := by rw [← pow_add, hsr]
  have hpow' : (2 : Nat) ^ r * 2 ^ s = 2 ^ 64 := by rw [← pow_add, hrs]
  have ha : y >>> s = y / 2 ^ s := Nat.shiftRight_eq_div_pow y s
  set a := y / 2 ^ s with hadef
  set b := y % 2 ^ s with hbdef
  have hy_ab : 2 ^ s * a + b = y := Nat.div_add_mod y (2 ^ s)
  have halt : a < 2 ^ r := by
    rw [hadef]
    exact Nat.div_lt_of_lt_mul (by rw [hpow]; exact hy)
  have hblt : b < 2 ^ s := Nat.mod_lt _ (Nat.pos_pow_of_pos s (by norm_num))
  have hub : b * 2 ^ r + a < 2 ^ 64 := by
    calc b * 2 ^ r + a < b * 2 ^ r + 2 ^ r := by omega
      _ = (b + 1) * 2 ^ r := by ring
      _ ≤ 2 ^ s * 2 ^ r := Nat.mul_le_mul_right _ hblt
      _ = 2 ^ 64 := hpow
  have hva : a * 2 ^ s + b < 2 ^ 64 := by
    calc a * 2 ^ s + b < a * 2 ^ s + 2 ^ s := by omega
      _ = (a + 1) * 2 ^ s := by ring
      _ ≤ 2 ^ r * 2 ^ s := Nat.mul_le_mul_right _ halt
      _ = 2 ^ 64 := hpow'
  have hu : ((y >>> s) + (y <<< r)) &&& (2 ^ 64 - 1) = b * 2 ^ r + a := by
    rw [Nat.and_pow_two_sub_one_eq_mod, ha, Nat.shiftLeft_eq]
    have hyr : y * 2 ^ r = a * 2 ^ 64 + b * 2 ^ r := by
      calc y * 2 ^ r = (2 ^ s * a + b) * 2 ^ r := by rw [hy_ab]
        _ = a * (2 ^ s * 2 ^ r) + b * 2 ^ r := by ring
        _ = a * 2 ^ 64 + b * 2 ^ r := by rw [hpow]
    rw [hyr]
    have harr : a + (a * 2 ^ 64 + b * 2 ^ r) = 2 ^ 64 * a + (b * 2 ^ r + a) := by ring
    rw [harr, Nat.mul_add_mod, Nat.mod_eq_of_lt hub]
  rw [hu]
  have hur : (b * 2 ^ r + a) >>> r = b := by
    rw [Nat.shiftRight_eq_div_pow, Nat.mul_comm b (2 ^ r),
      Nat.mul_add_div (Nat.pos_pow_of_pos r (by norm_num)), Nat.div_eq_of_lt halt,
      Nat.add_zero]
  have hus : (b * 2 ^ r + a) <<< s = b * 2 ^ 64 + a * 2 ^ s := by
    rw [Nat.shiftLeft_eq]
    calc (b * 2 ^ r + a) * 2 ^ s = b * (2 ^ r * 2 ^ s) + a * 2 ^ s := by ring
      _ = b * 2 ^ 64 + a * 2 ^ s := by rw [hpow']
  rw [hur, hus, Nat.and_pow_two_sub_one_eq_mod]
  have harr2 : b + (b * 2 ^ 64 + a * 2 ^ s) = 2 ^ 64 * b + (a * 2 ^ s + b) := by ring
  rw [harr2, Nat.mul_add_mod, Nat.mod_eq_of_lt hva, Nat.mul_comm a (2 ^ s), hy_ab]

/-- C5: for SPECK-128/256 (64-bit words, alpha = 8, beta = 3) and every
x, y, k below 2^64, the decryption round, using subtraction modulo 2^64
and the inverse rotations, is the exact inverse of the encryption round:
decrypt_round(encrypt_round(x, y, k), k) == (x, y). -/
theorem speck_decrypt_round_encrypt_round (x y k : Nat)
    (hx : x < 2 ^ 64) (hy : y < 2 ^ 64) (hk : k < 2 ^ 64) :
    speck_decrypt_round (speck_encrypt_round x y k).1 (speck_encrypt_round x y k).2 k =
      (x, y) := by
  simp only [speck_encrypt_round, speck_decrypt_round, speckModMask,
    show (64 : Nat) - 3 = 61 from rfl, show (64 : Nat) - 8 = 56 from rfl]
  set rs_x := ((x <<< 56) + (x >>> 8)) &&& (2 ^ 64 - 1) with hrs
  set add_sxy := (rs_x + y) &&& (2 ^ 64 - 1) with hadd
  set ls_y := ((y >>> 61) + (y <<< 3)) &&& (2 ^ 64 - 1) with hls
  have hcancel : (k ^^^ add_sxy) ^^^ ((k ^^^ add_sxy) ^^^ ls_y) = ls_y := by
    rw [← Nat.xor_assoc, Nat.xor_self, Nat.zero_xor]
  have hkk : (k ^^^ add_sxy) ^^^ k = add_sxy := by
    rw [Nat.xor_comm k add_sxy, Nat.xor_assoc, Nat.xor_self, Nat.xor_zero]
  rw [hcancel, hkk]
  have hnewy : ((ls_y <<< 61) + (ls_y >>> 3)) &&& (2 ^ 64 - 1) = y := by
    rw [Nat.add_comm (ls_y <<< 61) (ls_y >>> 3), hls]
    exact rotl_then_rotl y 3 61 hy (by norm_num) (by norm_num) (by norm_num)
  rw [hnewy]
  have hrsx_lt : rs_x < 2 ^ 64 := by
    rw [hrs, Nat.and_pow_two_sub_one_eq_mod]
    exact Nat.mod_lt _ (by norm_num)
  have hn : add_sxy = (rs_x + y) % 2 ^ 64 := by
    rw [hadd, Nat.and_pow_two_sub_one_eq_mod]
  have hmsub : ((((add_sxy : Int) - (y : Int)) + 2 ^ 64) % 2 ^ 64).toNat = rs_x := by
    have haddm : (add_sxy : Int) = ((rs_x : Int) + (y : Int)) % 2 ^ 64 := by
      rw [hn]
      push_cast
      ring
    have hgoal : (((add_sxy : Int) - (y : Int)) + 2 ^ 64) % 2 ^ 64 = (rs_x : Int) := by
      rw [haddm]
      omega
    rw [hgoal]
    exact Int.toNat_natCast rs_x
  rw [hmsub]
  have hrs2 : rs_x = ((x >>> 8) + (x <<< 56)) &&& (2 ^ 64 - 1) := by
    rw [hrs, Nat.add_comm]
  have hnewx : ((rs_x >>> 56) + (rs_x <<< 8)) &&& (2 ^ 64 - 1) = x := by
    rw [hrs2]
    exact rotl_then_rotl x 56 8 hx (by norm_num) (by norm_num) (by norm_num)
  rw [hnewx]

/-- Witness for C5 at concrete words and round key. -/
theorem speck_decrypt_round_encrypt_round_witness :
    speck_decrypt_round (speck_encrypt_round 0x0123456789ABCDEF 0xFEDCBA9876543210 0x1F1E1D1C1B1A1918
        ).1
      (speck_encrypt_round 0x0123456789ABCDEF 0xFEDCBA9876543210 0x1F1E1D1C1B1A1918).2
      0x1F1E1D1C1B1A1918 = (0x0123456789ABCDEF, 0xFEDCBA9876543210) :=
  speck_decrypt_round_encrypt_round 0x0123456789ABCDEF 0xFEDCBA9876543210 0x1F1E1D1C1B1A1918
    (by norm_num) (by norm_num) (by norm_num)

/-! PRESENT (src/prelim2/cipher/present.py). -/

/-- PRESENT 4-bit S-box. -/
def presentSbox : List Nat :=
  [0xC, 0x5, 0x6, 0xB, 0x9, 0x0, 0xA, 0xD, 0x3, 0xE, 0xF, 0x8, 0x4, 0x7, 0x1, 0x2]

/-- Inverse S-box, `[Sbox.index(x) for x in range(16)]`. -/
def presentSboxInv : List Nat := (List.range 16).map (fun x => presentSbox.indexOf x)

/-- PRESENT bit-permutation layer table. -/
def presentPBox : List Nat :=
  [0, 16, 32, 48, 1, 17, 33, 49, 2, 18, 34, 50, 3, 19, 35, 51,
   4, 20, 36, 52, 5, 21, 37, 53, 6, 22, 38, 54, 7, 23, 39, 55,
   8, 24, 40, 56, 9, 25, 41, 57, 10, 26, 42, 58, 11, 27, 43, 59,
   12, 28, 44, 60, 13, 29, 45, 61, 14, 30, 46, 62, 15, 31, 47, 63]

/-- Inverse P-box, `[PBox.index(x) for x in range(64)]`. -/
def presentPBoxInv : List Nat := (List.range 64).map (fun x => presentPBox.indexOf x)

/-- Loop body of `generateRoundkeys80`: emit the top 64 bits of the key,
rotate the 80-bit key left by 61, S-box the top nibble, and XOR the salt
`i + 1` into bits 19..15 (the source loop counter runs `1 .. rounds`). -/
def presentKeySchedStep (st : Nat × List Nat) (i : Nat) : Nat × List Nat :=
  let ks := st.2 ++ [st.1 >>> 16]
  let shifted := ((st.1 &&& (2 ^ 19 - 1)) <<< 61) + (st.1 >>> 19)
  let sboxed := ((presentSbox.getD (shifted >>> 76) 0) <<< 76) + (shifted &&& (2 ^ 76 - 1))
  (sboxed ^^^ ((i + 1) <<< 15), ks)

/-- Translation of `generateRoundkeys80` as a fold of its loop body. -/
def generateRoundkeys80 (key : Nat) (rounds : Nat) : List Nat :=
  ((List.range rounds).foldl presentKeySchedStep (key, ([] : List Nat))).2

/-- Translation of `addRoundKey`. -/
def addRoundKey (state roundkey : Nat) : Nat := state ^^^ roundkey

/-- Translation of `sBoxLayer`. -/
def sBoxLayer (state : Nat) : Nat :=
  (List.range 16).foldl
    (fun out i => out + ((presentSbox.getD ((state >>> (i * 4)) &&& 0xF) 0) <<< (i * 4))) 0

/-- Translation of `sBoxLayer_dec`. -/
def sBoxLayer_dec (state : Nat) : Nat :=
  (List.range 16).foldl
    (fun out i => out + ((presentSboxInv.getD ((state >>> (i * 4)) &&& 0xF) 0) <<< (i * 4))) 0

/-- Translation of `pLayer`. -/
def pLayer (state : Nat) : Nat :=
  (List.range 64).foldl
    (fun out i => out + (((state >>> i) &&& 0x1) <<< (presentPBox.getD i 0))) 0

/-- Translation of `pLayer_dec`. -/
def pLayer_dec (state : Nat) : Nat :=
  (List.range 64).foldl
    (fun out i => out + (((state >>> i) &&& 0x1) <<< (presentPBoxInv.getD i 0))) 0

/-- Loop body of `PresentCipher.encrypt`: addRoundKey with `roundkeys[i]`,
then sBoxLayer, then pLayer. -/
def presentEncRound (ks : List Nat) (st i : Nat) : Nat :=
  pLayer (sBoxLayer (addRoundKey st (ks.getD i 0)))

/-- Loop body of `PresentCipher.decrypt`: addRoundKey with
`roundkeys[-i - 1]`, then pLayer_dec, then sBoxLayer_dec. -/
def presentDecRound (ks : List Nat) (st i : Nat) : Nat :=
  sBoxLayer_dec (pLayer_dec (addRoundKey st (ks.getD (ks.length - 1 - i) 0)))

/-- Translation of `PresentCipher.encrypt`: rounds - 1 full rounds then a
final `addRoundKey` with the last round key (`roundkeys[-1]`). -/
def PresentCipher_encrypt (roundkeys : List Nat) (rounds : Nat) (block : Nat) : Nat :=
  addRoundKey ((List.range (rounds - 1)).foldl (presentEncRound roundkeys) block)
    ((roundkeys.getLast?).getD 0)

/-- Translation of `PresentCipher.decrypt`: rounds - 1 inverse rounds then
a final `addRoundKey` with `roundkeys[0]`. -/
def PresentCipher_decrypt (roundkeys : List Nat) (rounds : Nat) (block : Nat) : Nat :=
  addRoundKey ((List.range (rounds - 1)).foldl (presentDecRound roundkeys) block)
    (roundkeys.getD 0 0)

theorem foldl_range_succ {b : Type} (f : b → Nat → b) (init : b) (n : Nat) :
    (List.range (n + 1)).foldl f init = f ((List.range n).foldl f init) n := by
  rw [List.range_succ, List.foldl_append]
  rfl

/-- Round keys of PRESENT-80 under the all-zero key, as produced by the
key schedule (checked step by step below). -/
def present80ZeroRoundKeys : List Nat :=
  [0x0,
   0xc000000000000000,
   0x5000180000000001,
   0x60000a0003000001,
   0xb0000c0001400062,
   0x900016000180002a,
   0x1920002c00033,
   0xa000a0003240005b,
   0xd000d4001400064c,
   0x30017a001a800284,
   0xe01926002f400355,
   0xf00a1c0324c005ed,
   0x800d5e014380649e,
   0x4017b001abc02876,
   0x71926802f600357f,
   0x10a1ce324d005ec7,
   0x20d5e21439c649a8,
   0xc17b041abc428730,
   0xc926b82f60835781,
   0x6a1cd924d705ec19,
   0xbd5e0d439b249aea,
   0x7b077abc1a8736e,
   0x426ba0f60ef5783e,
   0x41cda84d741ec1d5,
   0xf5e0e839b509ae8f,
   0x2b075ebc1d0736ad,
   0x86ba2560ebd783ad,
   0x8cdab0d744ac1d77,
   0x1e0eb19b561ae89b,
   0xd075c3c1d6336acd,
   0x8ba27a0eb8783ac9,
   0x6dab31744f41d700]

theorem present80ks_0 :
    (List.range 0).foldl presentKeySchedStep ((0 : Nat), ([] : List Nat)) = (0, []) := rfl

theorem present80ks_1 :
    (List.range 1).foldl presentKeySchedStep ((0 : Nat), ([] : List Nat)) =
      (0xc0000000000000008000, [0x0]) := by
  rw [foldl_range_succ, present80ks_0]
  decide

theorem present80ks_2 :
    (List.range 2).foldl presentKeySchedStep ((0 : Nat), ([] : List Nat)) =
      (0x50001800000000010000, [0x0, 0xc000000000000000]) := by
  rw [foldl_range_succ, present80ks_1]
  decide

theorem present80ks_3 :
    (List.range 3).foldl presentKeySchedStep ((0 : Nat), ([] : List Nat)) =
      (0x60000a00030000018000, [0x0, 0xc000000000000000, 0x5000180000000001]) := by
  rw [foldl_range_succ, present80ks_2]
  decide

theorem present80ks_4 :
    (List.range 4).foldl presentKeySchedStep ((0 : Nat), ([] : List Nat)) =
      (0xb0000c00014000620000, [0x0, 0xc000000000000000, 0x5000180000000001, 0x60000a0003000001]) := by
  rw [foldl_range_succ, present80ks_3]
  decide

theorem present80ks_5 :
    (List.range 5).foldl presentKeySchedStep ((0 : Nat), ([] : List Nat)) =
      (0x900016000180002a800c, [0x0, 0xc000000000000000, 0x5000180000000001, 0x60000a0003000001, 0xb0000c0001400062]) := by
  rw [foldl_range_succ, present80ks_4]
  decide

theorem present80ks_6 :
    (List.range 6).foldl presentKeySchedStep ((0 : Nat), ([] : List Nat)) =
      (0x1920002c000330005, [0x0, 0xc000000000000000, 0x5000180000000001, 0x60000a0003000001, 0xb0000c0001400062, 0x900016000180002a]) := by
  rw [foldl_range_succ, present80ks_5]
  decide

theorem present80ks_7 :
    (List.range 7).foldl presentKeySchedStep ((0 : Nat), ([] : List Nat)) =
      (0xa000a0003240005b8006, [0x0, 0xc000000000000000, 0x5000180000000001, 0x60000a0003000001, 0xb0000c0001400062, 0x900016000180002a, 0x1920002c00033]) := by
  rw [foldl_range_succ, present80ks_6]
  decide

theorem present80ks_8 :
    (List.range 8).foldl presentKeySchedStep ((0 : Nat), ([] : List Nat)) =
      (0xd000d4001400064c000b, [0x0, 0xc000000000000000, 0x5000180000000001, 0x60000a0003000001, 0xb0000c0001400062, 0x900016000180002a, 0x1920002c00033, 0xa000a0003240005b]) := by
  rw [foldl_range_succ, present80ks_7]
  decide

theorem present80ks_9 :
    (List.range 9).foldl presentKeySchedStep ((0 : Nat), ([] : List Nat)) =
      (0x30017a001a80028480c9, [0x0, 0xc000000000000000, 0x5000180000000001, 0x60000a0003000001, 0xb0000c0001400062, 0x900016000180002a, 0x1920002c00033, 0xa000a0003240005b, 0xd000d4001400064c]) := by
  rw [foldl_range_succ, present80ks_8]
  decide

theorem present80ks_10 :
    (List.range 10).foldl presentKeySchedStep ((0 : Nat), ([] : List Nat)) =
      (0xe01926002f4003550050, [0x0, 0xc000000000000000, 0x5000180000000001, 0x60000a0003000001, 0xb0000c0001400062, 0x900016000180002a, 0x1920002c00033, 0xa000a0003240005b, 0xd000d4001400064c, 0x30017a001a800284]) := by
  rw [foldl_range_succ, present80ks_9]
  decide

theorem present80ks_11 :
    (List.range 11).foldl presentKeySchedStep ((0 : Nat), ([] : List Nat)) =
      (0xf00a1c0324c005ed806a, [0x0, 0xc000000000000000, 0x5000180000000001, 0x60000a0003000001, 0xb0000c0001400062, 0x900016000180002a, 0x1920002c00033, 0xa000a0003240005b, 0xd000d4001400064c, 0x30017a001a800284, 0xe01926002f400355]) := by
  rw [foldl_range_succ, present80ks_10]
  decide

theorem present80ks_12 :
    (List.range 12).foldl presentKeySchedStep ((0 : Nat), ([] : List Nat)) =
      (0x800d5e014380649e00bd, [0x0, 0xc000000000000000, 0x5000180000000001, 0x60000a0003000001, 0xb0000c0001400062, 0x900016000180002a, 0x1920002c00033, 0xa000a0003240005b, 0xd000d4001400064c, 0x30017a001a800284, 0xe01926002f400355, 0xf00a1c0324c005ed]) := by
  rw [foldl_range_succ, present80ks_11]
  decide

theorem present80ks_13 :
    (List.range 13).foldl presentKeySchedStep ((0 : Nat), ([] : List Nat)) =
      (0x4017b001abc028768c93, [0x0, 0xc000000000000000, 0x5000180000000001, 0x60000a0003000001, 0xb0000c0001400062, 0x900016000180002a, 0x1920002c00033, 0xa000a0003240005b, 0xd000d4001400064c, 0x30017a001a800284, 0xe01926002f400355, 0xf00a1c0324c005ed, 0x800d5e014380649e]) := by
  rw [foldl_range_succ, present80ks_12]
  decide

theorem present80ks_14 :
    (List.range 14).foldl presentKeySchedStep ((0 : Nat), ([] : List Nat)) =
      (0x71926802f600357f050e, [0x0, 0xc000000000000000, 0x5000180000000001, 0x60000a0003000001, 0xb0000c0001400062, 0x900016000180002a, 0x1920002c00033, 0xa000a0003240005b, 0xd000d4001400064c, 0x30017a001a800284, 0xe01926002f400355, 0xf00a1c0324c005ed, 0x800d5e014380649e, 0x4017b001abc02876]) := by
  rw [foldl_range_succ, present80ks_13]
  decide

theorem present80ks_15 :
    (List.range 15).foldl presentKeySchedStep ((0 : Nat), ([] : List Nat)) =
      (0x10a1ce324d005ec786af, [0x0, 0xc000000000000000, 0x5000180000000001, 0x60000a0003000001, 0xb0000c0001400062, 0x900016000180002a, 0x1920002c00033, 0xa000a0003240005b, 0xd000d4001400064c, 0x30017a001a800284, 0xe01926002f400355, 0xf00a1c0324c005ed, 0x800d5e014380649e, 0x4017b001abc02876, 0x71926802f600357f]) := by
  rw [foldl_range_succ, present80ks_14]
  decide

theorem present80ks_16 :
    (List.range 16).foldl presentKeySchedStep ((0 : Nat), ([] : List Nat)) =
      (0x20d5e21439c649a80bd8, [0x0, 0xc000000000000000, 0x5000180000000001, 0x60000a0003000001, 0xb0000c0001400062, 0x900016000180002a, 0x1920002c00033, 0xa000a0003240005b, 0xd000d4001400064c, 0x30017a001a800284, 0xe01926002f400355, 0xf00a1c0324c005ed, 0x800d5e014380649e, 0x4017b001abc02876, 0x71926802f600357f, 0x10a1ce324d005ec7]) := by
  rw [foldl_range_succ, present80ks_15]
  decide

theorem present80ks_17 :
    (List.range 17).foldl presentKeySchedStep ((0 : Nat), ([] : List Nat)) =
      (0xc17b041abc4287304935, [0x0, 0xc000000000000000, 0x5000180000000001, 0x60000a0003000001, 0xb0000c0001400062, 0x900016000180002a, 0x1920002c00033, 0xa000a0003240005b, 0xd000d4001400064c, 0x30017a001a800284, 0xe01926002f400355, 0xf00a1c0324c005ed, 0x800d5e014380649e, 0x4017b001abc02876, 0x71926802f600357f, 0x10a1ce324d005ec7, 0x20d5e21439c649a8]) := by
  rw [foldl_range_succ, present80ks_16]
  decide

theorem present80ks_18 :
    (List.range 18).foldl presentKeySchedStep ((0 : Nat), ([] : List Nat)) =
      (0xc926b82f6083578150e6, [0x0, 0xc000000000000000, 0x5000180000000001, 0x60000a0003000001, 0xb0000c0001400062, 0x900016000180002a, 0x1920002c00033, 0xa000a0003240005b, 0xd000d4001400064c, 0x30017a001a800284, 0xe01926002f400355, 0xf00a1c0324c005ed, 0x800d5e014380649e, 0x4017b001abc02876, 0x71926802f600357f, 0x10a1ce324d005ec7, 0x20d5e21439c649a8, 0xc17b041abc428730]) := by
  rw [foldl_range_succ, present80ks_17]
  decide

theorem present80ks_19 :
    (List.range 19).foldl presentKeySchedStep ((0 : Nat), ([] : List Nat)) =
      (0x6a1cd924d705ec19eaf0, [0x0, 0xc000000000000000, 0x5000180000000001, 0x60000a0003000001, 0xb0000c0001400062, 0x900016000180002a, 0x1920002c00033, 0xa000a0003240005b, 0xd000d4001400064c, 0x30017a001a800284, 0xe01926002f400355, 0xf00a1c0324c005ed, 0x800d5e014380649e, 0x4017b001abc02876, 0x71926802f600357f, 0x10a1ce324d005ec7, 0x20d5e21439c649a8, 0xc17b041abc428730, 0xc926b82f60835781]) := by
  rw [foldl_range_succ, present80ks_18]
  decide

theorem present80ks_20 :
    (List.range 20).foldl presentKeySchedStep ((0 : Nat), ([] : List Nat)) =
      (0xbd5e0d439b249aeabd83, [0x0, 0xc000000000000000, 0x5000180000000001, 0x60000a0003000001, 0xb0000c0001400062, 0x900016000180002a, 0x1920002c00033, 0xa000a0003240005b, 0xd000d4001400064c, 0x30017a001a800284, 0xe01926002f400355, 0xf00a1c0324c005ed, 0x800d5e014380649e, 0x4017b001abc02876, 0x71926802f600357f, 0x10a1ce324d005ec7, 0x20d5e21439c649a8, 0xc17b041abc428730, 0xc926b82f60835781, 0x6a1cd924d705ec19]) := by
  rw [foldl_range_succ, present80ks_19]
  decide

theorem present80ks_21 :
    (List.range 21).foldl presentKeySchedStep ((0 : Nat), ([] : List Nat)) =
      (0x7b077abc1a8736e135d, [0x0, 0xc000000000000000, 0x5000180000000001, 0x60000a0003000001, 0xb0000c0001400062, 0x900016000180002a, 0x1920002c00033, 0xa000a0003240005b, 0xd000d4001400064c, 0x30017a001a800284, 0xe01926002f400355, 0xf00a1c0324c005ed, 0x800d5e014380649e, 0x4017b001abc02876, 0x71926802f600357f, 0x10a1ce324d005ec7, 0x20d5e21439c649a8, 0xc17b041abc428730, 0xc926b82f60835781, 0x6a1cd924d705ec19, 0xbd5e0d439b249aea]) := by
  rw [foldl_range_succ, present80ks_20]
  decide

theorem present80ks_22 :
    (List.range 22).foldl presentKeySchedStep ((0 : Nat), ([] : List Nat)) =
      (0x426ba0f60ef5783e0e6d, [0x0, 0xc000000000000000, 0x5000180000000001, 0x60000a0003000001, 0xb0000c0001400062, 0x900016000180002a, 0x1920002c00033, 0xa000a0003240005b, 0xd000d4001400064c, 0x30017a001a800284, 0xe01926002f400355, 0xf00a1c0324c005ed, 0x800d5e014380649e, 0x4017b001abc02876, 0x71926802f600357f, 0x10a1ce324d005ec7, 0x20d5e21439c649a8, 0xc17b041abc428730, 0xc926b82f60835781, 0x6a1cd924d705ec19, 0xbd5e0d439b249aea, 0x7b077abc1a8736e]) := by
  rw [foldl_range_succ, present80ks_21]
  decide

theorem present80ks_23 :
    (List.range 23).foldl presentKeySchedStep ((0 : Nat), ([] : List Nat)) =
      (0x41cda84d741ec1d52f07, [0x0, 0xc000000000000000, 0x5000180000000001, 0x60000a0003000001, 0xb0000c0001400062, 0x900016000180002a, 0x1920002c00033, 0xa000a0003240005b, 0xd000d4001400064c, 0x30017a001a800284, 0xe01926002f400355, 0xf00a1c0324c005ed, 0x800d5e014380649e, 0x4017b001abc02876, 0x71926802f600357f, 0x10a1ce324d005ec7, 0x20d5e21439c649a8, 0xc17b041abc428730, 0xc926b82f60835781, 0x6a1cd924d705ec19, 0xbd5e0d439b249aea, 0x7b077abc1a8736e, 0x426ba0f60ef5783e]) := by
  rw [foldl_range_succ, present80ks_22]
  decide

theorem present80ks_24 :
    (List.range 24).foldl presentKeySchedStep ((0 : Nat), ([] : List Nat)) =
      (0xf5e0e839b509ae8fd83a, [0x0, 0xc000000000000000, 0x5000180000000001, 0x60000a0003000001, 0xb0000c0001400062, 0x900016000180002a, 0x1920002c00033, 0xa000a0003240005b, 0xd000d4001400064c, 0x30017a001a800284, 0xe01926002f400355, 0xf00a1c0324c005ed, 0x800d5e014380649e, 0x4017b001abc02876, 0x71926802f600357f, 0x10a1ce324d005ec7, 0x20d5e21439c649a8, 0xc17b041abc428730, 0xc926b82f60835781, 0x6a1cd924d705ec19, 0xbd5e0d439b249aea, 0x7b077abc1a8736e, 0x426ba0f60ef5783e, 0x41cda84d741ec1d5]) := by
  rw [foldl_range_succ, present80ks_23]
  decide

theorem present80ks_25 :
    (List.range 25).foldl presentKeySchedStep ((0 : Nat), ([] : List Nat)) =
      (0x2b075ebc1d0736adb5d1, [0x0, 0xc000000000000000, 0x5000180000000001, 0x60000a0003000001, 0xb0000c0001400062, 0x900016000180002a, 0x1920002c00033, 0xa000a0003240005b, 0xd000d4001400064c, 0x30017a001a800284, 0xe01926002f400355, 0xf00a1c0324c005ed, 0x800d5e014380649e, 0x4017b001abc02876, 0x71926802f600357f, 0x10a1ce324d005ec7, 0x20d5e21439c649a8, 0xc17b041abc428730, 0xc926b82f60835781, 0x6a1cd924d705ec19, 0xbd5e0d439b249aea, 0x7b077abc1a8736e, 0x426ba0f60ef5783e, 0x41cda84d741ec1d5, 0xf5e0e839b509ae8f]) := by
  rw [foldl_range_succ, present80ks_24]
  decide

theorem present80ks_26 :
    (List.range 26).foldl presentKeySchedStep ((0 : Nat), ([] : List Nat)) =
      (0x86ba2560ebd783ade6d5, [0x0, 0xc000000000000000, 0x5000180000000001, 0x60000a0003000001, 0xb0000c0001400062, 0x900016000180002a, 0x1920002c00033, 0xa000a0003240005b, 0xd000d4001400064c, 0x30017a001a800284, 0xe01926002f400355, 0xf00a1c0324c005ed, 0x800d5e014380649e, 0x4017b001abc02876, 0x71926802f600357f, 0x10a1ce324d005ec7, 0x20d5e21439c649a8, 0xc17b041abc428730, 0xc926b82f60835781, 0x6a1cd924d705ec19, 0xbd5e0d439b249aea, 0x7b077abc1a8736e, 0x426ba0f60ef5783e, 0x41cda84d741ec1d5, 0xf5e0e839b509ae8f, 0x2b075ebc1d0736ad]) := by
  rw [foldl_range_succ, present80ks_25]
  decide

theorem present80ks_27 :
    (List.range 27).foldl presentKeySchedStep ((0 : Nat), ([] : List Nat)) =
      (0x8cdab0d744ac1d777075, [0x0, 0xc000000000000000, 0x5000180000000001, 0x60000a0003000001, 0xb0000c0001400062, 0x900016000180002a, 0x1920002c00033, 0xa000a0003240005b, 0xd000d4001400064c, 0x30017a001a800284, 0xe01926002f400355, 0xf00a1c0324c005ed, 0x800d5e014380649e, 0x4017b001abc02876, 0x71926802f600357f, 0x10a1ce324d005ec7, 0x20d5e21439c649a8, 0xc17b041abc428730, 0xc926b82f60835781, 0x6a1cd924d705ec19, 0xbd5e0d439b249aea, 0x7b077abc1a8736e, 0x426ba0f60ef5783e, 0x41cda84d741ec1d5, 0xf5e0e839b509ae8f, 0x2b075ebc1d0736ad, 0x86ba2560ebd783ad]) := by
  rw [foldl_range_succ, present80ks_26]
  decide

theorem present80ks_28 :
    (List.range 28).foldl presentKeySchedStep ((0 : Nat), ([] : List Nat)) =
      (0x1e0eb19b561ae89b83ae, [0x0, 0xc000000000000000, 0x5000180000000001, 0x60000a0003000001, 0xb0000c0001400062, 0x900016000180002a, 0x1920002c00033, 0xa000a0003240005b, 0xd000d4001400064c, 0x30017a001a800284, 0xe01926002f400355, 0xf00a1c0324c005ed, 0x800d5e014380649e, 0x4017b001abc02876, 0x71926802f600357f, 0x10a1ce324d005ec7, 0x20d5e21439c649a8, 0xc17b041abc428730, 0xc926b82f60835781, 0x6a1cd924d705ec19, 0xbd5e0d439b249aea, 0x7b077abc1a8736e, 0x426ba0f60ef5783e, 0x41cda84d741ec1d5, 0xf5e0e839b509ae8f, 0x2b075ebc1d0736ad, 0x86ba2560ebd783ad, 0x8cdab0d744ac1d77]) := by
  rw [foldl_range_succ, present80ks_27]
  decide

theorem present80ks_29 :
    (List.range 29).foldl presentKeySchedStep ((0 : Nat), ([] : List Nat)) =
      (0xd075c3c1d6336acddd13, [0x0, 0xc000000000000000, 0x5000180000000001, 0x60000a0003000001, 0xb0000c0001400062, 0x900016000180002a, 0x1920002c00033, 0xa000a0003240005b, 0xd000d4001400064c, 0x30017a001a800284, 0xe01926002f400355, 0xf00a1c0324c005ed, 0x800d5e014380649e, 0x4017b001abc02876, 0x71926802f600357f, 0x10a1ce324d005ec7, 0x20d5e21439c649a8, 0xc17b041abc428730, 0xc926b82f60835781, 0x6a1cd924d705ec19, 0xbd5e0d439b249aea, 0x7b077abc1a8736e, 0x426ba0f60ef5783e, 0x41cda84d741ec1d5, 0xf5e0e839b509ae8f, 0x2b075ebc1d0736ad, 0x86ba2560ebd783ad, 0x8cdab0d744ac1d77, 0x1e0eb19b561ae89b]) := by
  rw [foldl_range_succ, present80ks_28]
  decide

theorem present80ks_30 :
    (List.range 30).foldl presentKeySchedStep ((0 : Nat), ([] : List Nat)) =
      (0x8ba27a0eb8783ac96d59, [0x0, 0xc000000000000000, 0x5000180000000001, 0x60000a0003000001, 0xb0000c0001400062, 0x900016000180002a, 0x1920002c00033, 0xa000a0003240005b, 0xd000d4001400064c, 0x30017a001a800284, 0xe01926002f400355, 0xf00a1c0324c005ed, 0x800d5e014380649e, 0x4017b001abc02876, 0x71926802f600357f, 0x10a1ce324d005ec7, 0x20d5e21439c649a8, 0xc17b041abc428730, 0xc926b82f60835781, 0x6a1cd924d705ec19, 0xbd5e0d439b249aea, 0x7b077abc1a8736e, 0x426ba0f60ef5783e, 0x41cda84d741ec1d5, 0xf5e0e839b509ae8f, 0x2b075ebc1d0736ad, 0x86ba2560ebd783ad, 0x8cdab0d744ac1d77, 0x1e0eb19b561ae89b, 0xd075c3c1d6336acd]) := by
  rw [foldl_range_succ, present80ks_29]
  decide

theorem present80ks_31 :
    (List.range 31).foldl presentKeySchedStep ((0 : Nat), ([] : List Nat)) =
      (0x6dab31744f41d7008759, [0x0, 0xc000000000000000, 0x5000180000000001, 0x60000a0003000001, 0xb0000c0001400062, 0x900016000180002a, 0x1920002c00033, 0xa000a0003240005b, 0xd000d4001400064c, 0x30017a001a800284, 0xe01926002f400355, 0xf00a1c0324c005ed, 0x800d5e014380649e, 0x4017b001abc02876, 0x71926802f600357f, 0x10a1ce324d005ec7, 0x20d5e21439c649a8, 0xc17b041abc428730, 0xc926b82f60835781, 0x6a1cd924d705ec19, 0xbd5e0d439b249aea, 0x7b077abc1a8736e, 0x426ba0f60ef5783e, 0x41cda84d741ec1d5, 0xf5e0e839b509ae8f, 0x2b075ebc1d0736ad, 0x86ba2560ebd783ad, 0x8cdab0d744ac1d77, 0x1e0eb19b561ae89b, 0xd075c3c1d6336acd, 0x8ba27a0eb8783ac9]) := by
  rw [foldl_range_succ, present80ks_30]
  decide

theorem present80ks_32 :
    (List.range 32).foldl presentKeySchedStep ((0 : Nat), ([] : List Nat)) =
      (0x50eb2db5662e89f83ae0, [0x0, 0xc000000000000000, 0x5000180000000001, 0x60000a0003000001, 0xb0000c0001400062, 0x900016000180002a, 0x1920002c00033, 0xa000a0003240005b, 0xd000d4001400064c, 0x30017a001a800284, 0xe01926002f400355, 0xf00a1c0324c005ed, 0x800d5e014380649e, 0x4017b001abc02876, 0x71926802f600357f, 0x10a1ce324d005ec7, 0x20d5e21439c649a8, 0xc17b041abc428730, 0xc926b82f60835781, 0x6a1cd924d705ec19, 0xbd5e0d439b249aea, 0x7b077abc1a8736e, 0x426ba0f60ef5783e, 0x41cda84d741ec1d5, 0xf5e0e839b509ae8f, 0x2b075ebc1d0736ad, 0x86ba2560ebd783ad, 0x8cdab0d744ac1d77, 0x1e0eb19b561ae89b, 0xd075c3c1d6336acd, 0x8ba27a0eb8783ac9, 0x6dab31744f41d700]) := by
  rw [foldl_range_succ, present80ks_31]
  decide

theorem present80_round_keys :
    generateRoundkeys80 0 32 = present80ZeroRoundKeys := by
  show ((List.range 32).foldl presentKeySchedStep ((0 : Nat), ([] : List Nat))).2 =
    present80ZeroRoundKeys
  rw [present80ks_32]
  decide

theorem present80enc_0 :
    (List.range 0).foldl (presentEncRound present80ZeroRoundKeys) 0 = 0 := rfl

theorem present80enc_1 :
    (List.range 1).foldl (presentEncRound present80ZeroRoundKeys) 0 = 0xffffffff00000000 := by
  rw [foldl_range_succ, present80enc_0]
  decide

theorem present80enc_2 :
    (List.range 2).foldl (presentEncRound present80ZeroRoundKeys) 0 = 0x80ff00ffff008000 := by
  rw [foldl_range_succ, present80enc_1]
  decide

theorem present80enc_3 :
    (List.range 3).foldl (presentEncRound present80ZeroRoundKeys) 0 = 0x4036c837b7c88c09 := by
  rw [foldl_range_succ, present80enc_2]
  decide

theorem present80enc_4 :
    (List.range 4).foldl (presentEncRound present80ZeroRoundKeys) 0 = 0x73c2cd26b6192359 := by
  rw [foldl_range_succ, present80enc_3]
  decide

theorem present80enc_5 :
    (List.range 5).foldl (presentEncRound present80ZeroRoundKeys) 0 = 0x41d7be58531e4446 := by
  rw [foldl_range_succ, present80enc_4]
  decide

theorem present80enc_6 :
    (List.range 6).foldl (presentEncRound present80ZeroRoundKeys) 0 = 0x182ef861ad62fd1c := by
  rw [foldl_range_succ, present80enc_5]
  decide

theorem present80enc_7 :
    (List.range 7).foldl (presentEncRound present80ZeroRoundKeys) 0 = 0xea0a5b67effc5a4 := by
  rw [foldl_range_succ, present80enc_6]
  decide

theorem present80enc_8 :
    (List.range 8).foldl (presentEncRound present80ZeroRoundKeys) 0 = 0xbba0b848a113e080 := by
  rw [foldl_range_succ, present80enc_7]
  decide

theorem present80enc_9 :
    (List.range 9).foldl (presentEncRound present80ZeroRoundKeys) 0 = 0xfa943423a9142338 := by
  rw [foldl_range_succ, present80enc_8]
  decide

theorem present80enc_10 :
    (List.range 10).foldl (presentEncRound present80ZeroRoundKeys) 0 = 0x69f2e22d63684d54 := by
  rw [foldl_range_succ, present80enc_9]
  decide

theorem present80enc_11 :
    (List.range 11).foldl (presentEncRound present80ZeroRoundKeys) 0 = 0x548a4b63c330a59d := by
  rw [foldl_range_succ, present80enc_10]
  decide

theorem present80enc_12 :
    (List.range 12).foldl (presentEncRound present80ZeroRoundKeys) 0 = 0xd75f955fa228e4ca := by
  rw [foldl_range_succ, present80enc_11]
  decide

theorem present80enc_13 :
    (List.range 13).foldl (presentEncRound present80ZeroRoundKeys) 0 = 0x44255864103841f9 := by
  rw [foldl_range_succ, present80enc_12]
  decide

theorem present80enc_14 :
    (List.range 14).foldl (presentEncRound present80ZeroRoundKeys) 0 = 0xe2cc9004363f6c12 := by
  rw [foldl_range_succ, present80enc_13]
  decide

theorem present80enc_15 :
    (List.range 15).foldl (presentEncRound present80ZeroRoundKeys) 0 = 0xc36682c5cd375421 := by
  rw [foldl_range_succ, present80enc_14]
  decide

theorem present80enc_16 :
    (List.range 16).foldl (presentEncRound present80ZeroRoundKeys) 0 = 0x597db55cc2a5d9b6 := by
  rw [foldl_range_succ, present80enc_15]
  decide

theorem present80enc_17 :
    (List.range 17).foldl (presentEncRound present80ZeroRoundKeys) 0 = 0xe67ce40e71b8b713 := by
  rw [foldl_range_succ, present80enc_16]
  decide

theorem present80enc_18 :
    (List.range 18).foldl (presentEncRound present80ZeroRoundKeys) 0 = 0x751df6d6807b5b59 := by
  rw [foldl_range_succ, present80enc_17]
  decide

theorem present80enc_19 :
    (List.range 19).foldl (presentEncRound present80ZeroRoundKeys) 0 = 0xb948414e23332c93 := by
  rw [foldl_range_succ, present80enc_18]
  decide

theorem present80enc_20 :
    (List.range 20).foldl (presentEncRound present80ZeroRoundKeys) 0 = 0x5b75890dcfb3d563 := by
  rw [foldl_range_succ, present80enc_19]
  decide

theorem present80enc_21 :
    (List.range 21).foldl (presentEncRound present80ZeroRoundKeys) 0 = 0x5679203168278f5a := by
  rw [foldl_range_succ, present80enc_20]
  decide

theorem present80enc_22 :
    (List.range 22).foldl (presentEncRound present80ZeroRoundKeys) 0 = 0x17c377c413fa45a3 := by
  rw [foldl_range_succ, present80enc_21]
  decide

theorem present80enc_23 :
    (List.range 23).foldl (presentEncRound present80ZeroRoundKeys) 0 = 0x262a2de73b5f3ecd := by
  rw [foldl_range_succ, present80enc_22]
  decide

theorem present80enc_24 :
    (List.range 24).foldl (presentEncRound present80ZeroRoundKeys) 0 = 0xd3a053128b4d7bb3 := by
  rw [foldl_range_succ, present80enc_23]
  decide

theorem present80enc_25 :
    (List.range 25).foldl (presentEncRound present80ZeroRoundKeys) 0 = 0x7db29209c28a20fa := by
  rw [foldl_range_succ, present80enc_24]
  decide

theorem present80enc_26 :
    (List.range 26).foldl (presentEncRound present80ZeroRoundKeys) 0 = 0x62050c9940f400b9 := by
  rw [foldl_range_succ, present80enc_25]
  decide

theorem present80enc_27 :
    (List.range 27).foldl (presentEncRound present80ZeroRoundKeys) 0 = 0x65d50da21fbcc09f := by
  rw [foldl_range_succ, present80enc_26]
  decide

theorem present80enc_28 :
    (List.range 28).foldl (presentEncRound present80ZeroRoundKeys) 0 = 0x6a50663c540d862f := by
  rw [foldl_range_succ, present80enc_27]
  decide

theorem present80enc_29 :
    (List.range 29).foldl (presentEncRound present80ZeroRoundKeys) 0 = 0xc79b8ff00a48df35 := by
  rw [foldl_range_succ, present80enc_28]
  decide

theorem present80enc_30 :
    (List.range 30).foldl (presentEncRound present80ZeroRoundKeys) 0 = 0x4a38c5e00283fba1 := by
  rw [foldl_range_succ, present80enc_29]
  decide

theorem present80enc_31 :
    (List.range 31).foldl (presentEncRound present80ZeroRoundKeys) 0 = 0x38d2f04c34635345 := by
  rw [foldl_range_succ, present80enc_30]
  decide

theorem present80dec_0 :
    (List.range 0).foldl (presentDecRound present80ZeroRoundKeys) 0x5579c1387b228445 =
      0x5579c1387b228445 := rfl

theorem present80dec_1 :
    (List.range 1).foldl (presentDecRound present80ZeroRoundKeys) 0x5579c1387b228445 =
      0xc19abfeebafbc168 := by
  rw [foldl_range_succ, present80dec_0]
  decide

theorem present80dec_2 :
    (List.range 2).foldl (presentDecRound present80ZeroRoundKeys) 0x5579c1387b228445 =
      0x17ee4c31dc7bb5f8 := by
  rw [foldl_range_succ, present80dec_1]
  decide

theorem present80dec_3 :
    (List.range 3).foldl (presentDecRound present80ZeroRoundKeys) 0x5579c1387b228445 =
      0x745ed7a702176eb4 := by
  rw [foldl_range_succ, present80dec_2]
  decide

theorem present80dec_4 :
    (List.range 4).foldl (presentDecRound present80ZeroRoundKeys) 0x5579c1387b228445 =
      0xe90fbd755b10dde8 := by
  rw [foldl_range_succ, present80dec_3]
  decide

theorem present80dec_5 :
    (List.range 5).foldl (presentDecRound present80ZeroRoundKeys) 0x5579c1387b228445 =
      0xe4bf29f9ab238314 := by
  rw [foldl_range_succ, present80dec_4]
  decide

theorem present80dec_6 :
    (List.range 6).foldl (presentDecRound present80ZeroRoundKeys) 0x5579c1387b228445 =
      0x56b5ccb5df8d1657 := by
  rw [foldl_range_succ, present80dec_5]
  decide

theorem present80dec_7 :
    (List.range 7).foldl (presentDecRound present80ZeroRoundKeys) 0x5579c1387b228445 =
      0x2640bb2b3e44d53c := by
  rw [foldl_range_succ, present80dec_6]
  decide

theorem present80dec_8 :
    (List.range 8).foldl (presentDecRound present80ZeroRoundKeys) 0x5579c1387b228445 =
      0x67e785aa4f41ff18 := by
  rw [foldl_range_succ, present80dec_7]
  decide

theorem present80dec_9 :
    (List.range 9).foldl (presentDecRound present80ZeroRoundKeys) 0x5579c1387b228445 =
      0x55a8d7321d0f3d9d := by
  rw [foldl_range_succ, present80dec_8]
  decide

theorem present80dec_10 :
    (List.range 10).foldl (presentDecRound present80ZeroRoundKeys) 0x5579c1387b228445 =
      0x51c9579aa98ffc34 := by
  rw [foldl_range_succ, present80dec_9]
  decide

theorem present80dec_11 :
    (List.range 11).foldl (presentDecRound present80ZeroRoundKeys) 0x5579c1387b228445 =
      0xe62b844e54974f89 := by
  rw [foldl_range_succ, present80dec_10]
  decide

theorem present80dec_12 :
    (List.range 12).foldl (presentDecRound present80ZeroRoundKeys) 0x5579c1387b228445 =
      0xd354986af436c08a := by
  rw [foldl_range_succ, present80dec_11]
  decide

theorem present80dec_13 :
    (List.range 13).foldl (presentDecRound present80ZeroRoundKeys) 0x5579c1387b228445 =
      0xbc3b4ef9e0f80cd8 := by
  rw [foldl_range_succ, present80dec_12]
  decide

theorem present80dec_14 :
    (List.range 14).foldl (presentDecRound present80ZeroRoundKeys) 0x5579c1387b228445 =
      0x2707e014cdfa3023 := by
  rw [foldl_range_succ, present80dec_13]
  decide

theorem present80dec_15 :
    (List.range 15).foldl (presentDecRound present80ZeroRoundKeys) 0x5579c1387b228445 =
      0x79a85748fb63901e := by
  rw [foldl_range_succ, present80dec_14]
  decide

theorem present80dec_16 :
    (List.range 16).foldl (presentDecRound present80ZeroRoundKeys) 0x5579c1387b228445 =
      0xd3c74cf780370ae6 := by
  rw [foldl_range_succ, present80dec_15]
  decide

theorem present80dec_17 :
    (List.range 17).foldl (presentDecRound present80ZeroRoundKeys) 0x5579c1387b228445 =
      0x935ef806c03f596d := by
  rw [foldl_range_succ, present80dec_16]
  decide

theorem present80dec_18 :
    (List.range 18).foldl (presentDecRound present80ZeroRoundKeys) 0x5579c1387b228445 =
      0x432e865bbf8698f := by
  rw [foldl_range_succ, present80dec_17]
  decide

theorem present80dec_19 :
    (List.range 19).foldl (presentDecRound present80ZeroRoundKeys) 0x5579c1387b228445 =
      0x5752cb5ee1a88054 := by
  rw [foldl_range_succ, present80dec_18]
  decide

theorem present80dec_20 :
    (List.range 20).foldl (presentDecRound present80ZeroRoundKeys) 0x5579c1387b228445 =
      0xa4805760e7f0a070 := by
  rw [foldl_range_succ, present80dec_19]
  decide

theorem present80dec_21 :
    (List.range 21).foldl (presentDecRound present80ZeroRoundKeys) 0x5579c1387b228445 =
      0x89ebc42d4c284e01 := by
  rw [foldl_range_succ, present80dec_20]
  decide

theorem present80dec_22 :
    (List.range 22).foldl (presentDecRound present80ZeroRoundKeys) 0x5579c1387b228445 =
      0xca954e23b39421bc := by
  rw [foldl_range_succ, present80dec_21]
  decide

theorem present80dec_23 :
    (List.range 23).foldl (presentDecRound present80ZeroRoundKeys) 0x5579c1387b228445 =
      0x6ba06c48b513e6cc := by
  rw [foldl_range_succ, present80dec_22]
  decide

theorem present80dec_24 :
    (List.range 24).foldl (presentDecRound present80ZeroRoundKeys) 0x5579c1387b228445 =
      0xaea005b64cbfc5ff := by
  rw [foldl_range_succ, present80dec_23]
  decide

theorem present80dec_25 :
    (List.range 25).foldl (presentDecRound present80ZeroRoundKeys) 0x5579c1387b228445 =
      0x182f6a61afa2fd2f := by
  rw [foldl_range_succ, present80dec_24]
  decide

theorem present80dec_26 :
    (List.range 26).foldl (presentDecRound present80ZeroRoundKeys) 0x5579c1387b228445 =
      0xd1d7a858529e446c := by
  rw [foldl_range_succ, present80dec_25]
  decide

theorem present80dec_27 :
    (List.range 27).foldl (presentDecRound present80ZeroRoundKeys) 0x5579c1387b228445 =
      0xc3c2c126b759233b := by
  rw [foldl_range_succ, present80dec_26]
  decide

theorem present80dec_28 :
    (List.range 28).foldl (presentDecRound present80ZeroRoundKeys) 0x5579c1387b228445 =
      0x2036c237b4c88c08 := by
  rw [foldl_range_succ, present80dec_27]
  decide

theorem present80dec_29 :
    (List.range 29).foldl (presentDecRound present80ZeroRoundKeys) 0x5579c1387b228445 =
      0xd0ff18ffff008001 := by
  rw [foldl_range_succ, present80dec_28]
  decide

theorem present80dec_30 :
    (List.range 30).foldl (presentDecRound present80ZeroRoundKeys) 0x5579c1387b228445 =
      0x3fffffff00000000 := by
  rw [foldl_range_succ, present80dec_29]
  decide

theorem present80dec_31 :
    (List.range 31).foldl (presentDecRound present80ZeroRoundKeys) 0x5579c1387b228445 =
      0x0 := by
  rw [foldl_range_succ, present80dec_30]
  decide

/-- C3: PRESENT with the 80-bit all-zero key encrypts the all-zero 64-bit
block to 5579c1387b228445, and decrypting that ciphertext with the same
key recovers the all-zero plaintext block. -/
theorem present80_zero_test_vector :
    PresentCipher_encrypt (generateRoundkeys80 0 32) 32 0 = 0x5579c1387b228445 ∧
    PresentCipher_decrypt (generateRoundkeys80 0 32) 32 0x5579c1387b228445 = 0 := by
  rw [present80_round_keys]
  constructor
  · show addRoundKey
      ((List.range 31).foldl (presentEncRound present80ZeroRoundKeys) 0)
      ((present80ZeroRoundKeys.getLast?).getD 0) = 0x5579c1387b228445
    rw [present80enc_31]
    decide
  · show addRoundKey
      ((List.range 31).foldl (presentDecRound present80ZeroRoundKeys) 0x5579c1387b228445)
      (present80ZeroRoundKeys.getD 0 0) = 0
    rw [present80dec_31]
    decide

/-! ExpansionPBox (src/prelim2/cipher/components/permutation/resize.py).
The constructor subtracts the start offset from every table entry; the
statements below are over the adjusted table. -/

/-- Adjusted lookup table of `ExpansionPBox.__init__` (`position - start`). -/
def mkExpansionTable (table : List Nat) (start : Nat) : List Nat :=
  table.map (fun p => p - start)

/-- Maximum entry of a table, as Python's `max` over a nonempty list
(`maxList [] = 0` is never used: the theorems assume a covering table). -/
def maxList (l : List Nat) : Nat := l.foldr max 0

/-- `ExpansionPBox.encrypt` over an adjusted table: every table position
selects one input bit, repetitions included, at input width `w`. -/
def expansionEncrypt (t : List Nat) (w : Nat) (x : Nat) : Nat := permuteBits t w x

/-- `ExpansionPBox.decrypt` over an adjusted table: permute with the
cached inverse table (initialised to `list(range(max(table) + 1))`, each
table position overwritten with its index, later occurrences winning);
the input width is the table length, the width of the encrypt output. -/
def expansionDecrypt (t : List Nat) (y : Nat) : Nat :=
  permuteBits (invertTable t (maxList t + 1)) t.length y

theorem le_maxList (t : List Nat) : ∀ p ∈ t, p ≤ maxList t := by
  induction t with
  | nil => simp
  | cons a rest ih =>
    intro p hp
    have hmax : maxList (a :: rest) = max a (maxList rest) := rfl
    rcases List.mem_cons.mp hp with h | h
    · rw [h, hmax]; exact Nat.le_max_left _ _
    · rw [hmax]; exact le_trans (ih p h) (Nat.le_max_right _ _)

/-- C9: for every ExpansionPBox whose adjusted lookup table contains every
source-bit position of the input at least once, and every input x of the
matching width `max(table) + 1`, decrypt(encrypt(x)) == x: the inverse
table built from the last occurrence of each source position suffices to
recover every original bit. -/
theorem expansionPBox_decrypt_encrypt (t : List Nat) (x : Nat)
    (hcover : ∀ p, p < maxList t + 1 → p ∈ t)
    (hx : x < 2 ^ (maxList t + 1)) :
    expansionDecrypt t (expansionEncrypt t (maxList t + 1) x) = x := by
  exact permute_inverse t (maxList t + 1) x hcover
    (fun p hp => Nat.lt_succ_of_le (le_maxList t p hp)) hx

/-- Witness for C9 at the DES in-round expansion table and a concrete
32-bit input. -/
theorem expansionPBox_decrypt_encrypt_witness :
    expansionDecrypt desExpTable
      (expansionEncrypt desExpTable (maxList desExpTable + 1) 0x12345678) = 0x12345678 :=
  expansionPBox_decrypt_encrypt desExpTable 0x12345678 (by decide) (by decide)

/-! Modes of operation (src/prelim2/modes).  Messages and blocks are byte
lists; every mode carries its `block_size` in bits and divides by 8
(`>> 3`) where the source does. -/

/-- Translation of `modes.utils.xor`: copy the first block and XOR each
byte of the second into the corresponding position.  (The source raises
IndexError when the second block is longer; no call site does that, and
here the extra bytes are ignored.) -/
def bytesXor : List Nat → List Nat → List Nat
  | [], _ => []
  | a, [] => a
  | x :: a, y :: b => (x ^^^ y) :: bytesXor a b

/-- Translation of `modes.utils.block_generator`: slices of
`block_size >> 3` bytes, the final slice possibly short.  The loop over
`range(0, len(data), byte_block_size)` is realised with a fuel bounded by
the data length (each step consumes at least one byte when the block size
is positive). -/
def blockGeneratorGo (bb : Nat) : Nat → List Nat → List (List Nat)
  | 0, _ => []
  | _, [] => []
  | fuel + 1, data => data.take bb :: blockGeneratorGo bb fuel (data.drop bb)

/-- Chunking of a message into blocks of `blockSize >> 3` bytes. -/
def blockGenerator (blockSize : Nat) (data : List Nat) : List (List Nat) :=
  blockGeneratorGo (blockSize >>> 3) data.length data

/-- Python's `block[:-p]`: empty when p = 0 (`-0 == 0` makes the slice
`block[:0]`), otherwise the first `len - p` elements. -/
def pySliceNeg (l : List Nat) (p : Nat) : List Nat :=
  if p = 0 then [] else l.take (l.length - p)

/-- Translation of `PadPKCS7.pad` (src/prelim2/modes/padding/pkcs.py):
the final block is padded with `n` bytes of value `n`
(`n = block_bytes - len(block)`, or a whole extra block when the length is
already a multiple); an empty stream makes the generator evaluate
`len(None)` and raise, modelled as `none`. -/
def pkcs7Pad (blockSize : Nat) : List (List Nat) → Option (List (List Nat))
  | [] => none
  | [b] =>
    let bb := blockSize >>> 3
    let n0 := bb - b.length
    let n := if n0 = 0 then bb else n0
    if n = bb then some [b, List.replicate n n]
    else some [b ++ List.replicate n n]
  | b :: rest => (pkcs7Pad blockSize rest).map (fun r => b :: r)

/-- Translation of `PadPKCS7.unpad`: every block except the last is passed
through; for the last block the final byte `pad_byte` is read
(IndexError on an empty final block and TypeError on an empty stream,
both modelled as `none`) and the block is emitted as `block[:-pad_byte]`
only when `pad_byte < block_bytes`, else silently dropped.  No
PaddingError is ever raised and the stripped bytes are not checked. -/
def pkcs7Unpad (blockSize : Nat) : List (List Nat) → Option (List (List Nat))
  | [] => none
  | [b] =>
    match b.getLast? with
    | none => none
    | some pb => if pb < blockSize >>> 3 then some [pySliceNeg b pb] else some []
  | b :: rest => (pkcs7Unpad blockSize rest).map (fun r => b :: r)

/-- Translation of `PadZeros.pad` (src/prelim2/modes/padding/zeros.py):
like PKCS#7 but the pad bytes are zeros. -/
def padZerosPad (blockSize : Nat) : List (List Nat) → Option (List (List Nat))
  | [] => none
  | [b] =>
    let bb := blockSize >>> 3
    let n0 := bb - b.length
    let n := if n0 = 0 then bb else n0
    if n = bb then some [b, List.replicate n 0]
    else some [b ++ List.replicate n 0]
  | b :: rest => (padZerosPad blockSize rest).map (fun r => b :: r)

/-- Translation of `ElectronicCodeBookMode.encrypt` with the default
PKCS#7 padding: pad, encrypt each block, and concatenate the emitted
ciphertext blocks. -/
def ecbEncrypt (E : List Nat → List Nat) (blockSize : Nat) (msg : List Nat) :
    Option (List Nat) :=
  (pkcs7Pad blockSize (blockGenerator blockSize msg)).map (fun bl => (bl.map E).flatten)

/-- Translation of `ElectronicCodeBookMode.decrypt`: decrypt each block
and unpad. -/
def ecbDecrypt (D : List Nat → List Nat) (blockSize : Nat) (ct : List Nat) :
    Option (List Nat) :=
  (pkcs7Unpad blockSize ((blockGenerator blockSize ct).map D)).map List.flatten

/-- Block loop of `CipherBlockChainingMode.encrypt`:
`C_i = E(P_i xor C_(i-1))` with `C_0 = IV`. -/
def cbcEncryptBlocks (E : List Nat → List Nat) (prev : List Nat) :
    List (List Nat) → List (List Nat)
  | [] => []
  | b :: rest =>
    let c := E (bytesXor b prev)
    c :: cbcEncryptBlocks E c rest

/-- Block loop of `CipherBlockChainingMode.decrypt`:
`P_i = D(C_i) xor C_(i-1)`. -/
def cbcDecryptBlocks (D : List Nat → List Nat) (prev : List Nat) :
    List (List Nat) → List (List Nat)
  | [] => []
  | c :: rest => bytesXor (D c) prev :: cbcDecryptBlocks D c rest

/-- Translation of `CipherBlockChainingMode.encrypt` (default padding
PKCS#7). -/
def cbcEncrypt (E : List Nat → List Nat) (blockSize : Nat) (iv msg : List Nat) :
    Option (List Nat) :=
  (pkcs7Pad blockSize (blockGenerator blockSize msg)).map
    (fun bl => (cbcEncryptBlocks E iv bl).flatten)

/-- Translation of `CipherBlockChainingMode.decrypt`. -/
def cbcDecrypt (D : List Nat → List Nat) (blockSize : Nat) (iv ct : List Nat) :
    Option (List Nat) :=
  (pkcs7Unpad blockSize (cbcDecryptBlocks D iv (blockGenerator blockSize ct))).map
    List.flatten

/-- Segment loop of `CipherFeedBackMode.encrypt`:
`C_i = P_i xor MSB(E(IV_i))` with `IV_(i+1) = IV_i[len:] + C_i`. -/
def cfbEncryptSegs (E : List Nat → List Nat) (iv : List Nat) :
    List (List Nat) → List (List Nat)
  | [] => []
  | s :: rest =>
    let c := bytesXor s ((E iv).take s.length)
    c :: cfbEncryptSegs E (iv.drop s.length ++ c) rest

/-- Segment loop of `CipherFeedBackMode.decrypt`: the same keystream, the
IV update appending the ciphertext segment. -/
def cfbDecryptSegs (E : List Nat → List Nat) (iv : List Nat) :
    List (List Nat) → List (List Nat)
  | [] => []
  | c :: rest =>
    let p := bytesXor c ((E iv).take c.length)
    p :: cfbDecryptSegs E (iv.drop p.length ++ c) rest

/-- Translation of `CipherFeedBackMode.encrypt` (default padding none). -/
def cfbEncrypt (E : List Nat → List Nat) (blockSize : Nat) (iv msg : List Nat) :
    List Nat :=
  (cfbEncryptSegs E iv (blockGenerator blockSize msg)).flatten

/-- Translation of `CipherFeedBackMode.decrypt`. -/
def cfbDecrypt (E : List Nat → List Nat) (blockSize : Nat) (iv ct : List Nat) :
    List Nat :=
  (cfbDecryptSegs E iv (blockGenerator blockSize ct)).flatten

/-- Big-endian `int.from_bytes`. -/
def bytesToNat (l : List Nat) : Nat := l.foldl (fun acc b => acc * 256 + b) 0

/-- Big-endian `to_bytes(len, 'big')`. -/
def natToBytes (len : Nat) (n : Nat) : List Nat :=
  (List.range len).map (fun i => (n >>> (8 * (len - 1 - i))) &&& 0xFF)

/-- Counter step of `CounterMode`: `IV_(i+1) = (IV_i + 1) mod 2^block_size`
re-encoded on `block_size >> 3` bytes. -/
def ctrNextIV (blockSize : Nat) (iv : List Nat) : List Nat :=
  natToBytes (blockSize >>> 3) ((bytesToNat iv + 1) &&& ((1 <<< blockSize) - 1))

/-- Block loop shared by `CounterMode.encrypt` and `CounterMode.decrypt`:
XOR each block with `E(IV_i)` and step the counter. -/
def ctrBlocks (E : List Nat → List Nat) (blockSize : Nat) (iv : List Nat) :
    List (List Nat) → List (List Nat)
  | [] => []
  | b :: rest => bytesXor b (E iv) :: ctrBlocks E blockSize (ctrNextIV blockSize iv) rest

/-- Translation of `CounterMode.encrypt` (default padding PKCS#7). -/
def ctrEncrypt (E : List Nat → List Nat) (blockSize : Nat) (iv msg : List Nat) :
    Option (List Nat) :=
  (pkcs7Pad blockSize (blockGenerator blockSize msg)).map
    (fun bl => (ctrBlocks E blockSize iv bl).flatten)

/-- Translation of `CounterMode.decrypt`: the same `E`-based keystream,
then unpad. -/
def ctrDecrypt (E : List Nat → List Nat) (blockSize : Nat) (iv ct : List Nat) :
    Option (List Nat) :=
  (pkcs7Unpad blockSize (ctrBlocks E blockSize iv (blockGenerator blockSize ct))).map
    List.flatten

/-- Modelled from the spec: the OFB mode segment loop
(src/prelim2/modes/ofb.py is imported by src/prelim2/modes/__init__.py but
the file itself is absent from src/): keystream `O_i = E_K(O_(i-1))` with
`O_0 = IV`, output `C_i = P_i xor O_i` for each plaintext block. -/
def ofbEncryptSegs (E : List Nat → List Nat) (o : List Nat) :
    List (List Nat) → List (List Nat)
  | [] => []
  | p :: rest =>
    let onext := E o
    bytesXor p onext :: ofbEncryptSegs E onext rest

/-- Modelled from the spec: `OutputFeedBackMode.encrypt` with its default
padding none. -/
def ofbEncrypt (E : List Nat → List Nat) (blockSize : Nat) (iv msg : List Nat) :
    List Nat :=
  (ofbEncryptSegs E iv (blockGenerator blockSize msg)).flatten

/-- Modelled from the spec: OFB decryption is the same keystream XOR. -/
def ofbDecrypt (E : List Nat → List Nat) (blockSize : Nat) (iv ct : List Nat) :
    List Nat :=
  (ofbEncryptSegs E iv (blockGenerator blockSize ct)).flatten

theorem bytesXor_length (a : List Nat) : ∀ b, (bytesXor a b).length = a.length := by
  induction a with
  | nil => intro b; cases b <;> rfl
  | cons x a ih =>
    intro b
    cases b with
    | nil => rfl
    | cons y b => simpa [bytesXor] using ih b

theorem bytesXor_cancel (a : List Nat) : ∀ b, bytesXor (bytesXor a b) b = a := by
  induction a with
  | nil => intro b; cases b <;> rfl
  | cons x a ih =>
    intro b
    cases b with
    | nil => rfl
    | cons y b =>
      show ((x ^^^ y) ^^^ y) :: bytesXor (bytesXor a b) b = x :: a
      rw [Nat.xor_assoc, Nat.xor_self, Nat.xor_zero, ih b]

/-- Shape of the length sequence produced by `block_generator`: every
chunk of `bb` bytes except a final chunk of 1 to `bb` bytes. -/
def lengthsShaped (bb : Nat) : List Nat → Prop
  | [] => True
  | [n] => 0 < n ∧ n ≤ bb
  | n :: rest => n = bb ∧ lengthsShaped bb rest

/-- A block list is chunk-shaped if its lengths are. -/
def chunksShaped (bb : Nat) (bl : List (List Nat)) : Prop :=
  lengthsShaped bb (bl.map List.length)

theorem blockGeneratorGo_nil (bb : Nat) : ∀ fuel, blockGeneratorGo bb fuel [] = [] := by
  intro fuel; cases fuel <;> rfl

theorem blockGeneratorGo_flatten (bb : Nat) (hbb : 0 < bb) :
    ∀ (fuel : Nat) (data : List Nat), data.length ≤ fuel →
      (blockGeneratorGo bb fuel data).flatten = data := by
  intro fuel
  induction fuel with
  | zero =>
    intro data h
    rw [List.eq_nil_of_length_eq_zero (Nat.le_zero.mp h)]
    rfl
  | succ n ih =>
    intro data h
    cases data with
    | nil => rfl
    | cons d rest =>
      show ((d :: rest).take bb) ++ (blockGeneratorGo bb n ((d :: rest).drop bb)).flatten =
        d :: rest
      rw [ih ((d :: rest).drop bb) (by simp at h ⊢; omega)]
      exact List.take_append_drop bb (d :: rest)

theorem blockGeneratorGo_shape (bb : Nat) (hbb : 0 < bb) :
    ∀ (fuel : Nat) (data : List Nat), data ≠ [] → data.length ≤ fuel →
      chunksShaped bb (blockGeneratorGo bb fuel data) := by
  intro fuel
  induction fuel with
  | zero =>
    intro data hne h
    exact absurd (List.eq_nil_of_length_eq_zero (Nat.le_zero.mp h)) hne
  | succ n ih =>
    intro data hne h
    cases data with
    | nil => exact absurd rfl hne
    | cons d rest =>
      show chunksShaped bb (((d :: rest).take bb) :: blockGeneratorGo bb n ((d :: rest).drop bb))
      by_cases hlen : (d :: rest).length ≤ bb
      · rw [List.drop_eq_nil_of_le hlen, blockGeneratorGo_nil, List.take_of_length_le hlen]
        show 0 < (d :: rest).length ∧ (d :: rest).length ≤ bb
        exact ⟨by simp, hlen⟩
      · push_neg at hlen
        have hdrop_ne : (d :: rest).drop bb ≠ [] := by
          intro hcon
          have := List.drop_eq_nil_iff_le.mp hcon
          omega
        have hdrop_len : ((d :: rest).drop bb).length ≤ n := by simp at h ⊢; omega
        have htail := ih ((d :: rest).drop bb) hdrop_ne hdrop_len
        have hn : 0 < n := by
          have h1 : 0 < ((d :: rest).drop bb).length := List.length_pos.mpr hdrop_ne
          omega
        have htail_ne : blockGeneratorGo bb n ((d :: rest).drop bb) ≠ [] := by
          cases hcase : (d :: rest).drop bb with
          | nil => exact absurd hcase hdrop_ne
          | cons e t =>
            cases n with
            | zero => omega
            | succ m => exact List.cons_ne_nil _ _
        have hhead : ((d :: rest).take bb).length = bb := by
          rw [List.length_take]
          omega
        show lengthsShaped bb
          ((((d :: rest).take bb) :: blockGeneratorGo bb n ((d :: rest).drop bb)).map
            List.length)
        cases hcase : blockGeneratorGo bb n ((d :: rest).drop bb) with
        | nil => exact absurd hcase htail_ne
        | cons c t =>
          show ((d :: rest).take bb).length = bb ∧
            lengthsShaped bb ((c :: t).map List.length)
          refine ⟨hhead, ?_⟩
          have := htail
          rw [hcase] at this
          exact this

theorem blockGenerator_flatten (blockSize : Nat) (hbb : 0 < blockSize >>> 3)
    (msg : List Nat) : (blockGenerator blockSize msg).flatten = msg :=
  blockGeneratorGo_flatten (blockSize >>> 3) hbb msg.length msg (le_refl _)

theorem blockGenerator_shape (blockSize : Nat) (hbb : 0 < blockSize >>> 3)
    (msg : List Nat) (hne : msg ≠ []) :
    chunksShaped (blockSize >>> 3) (blockGenerator blockSize msg) :=
  blockGeneratorGo_shape (blockSize >>> 3) hbb msg.length msg hne (le_refl _)

theorem blockGenerator_ne_nil (blockSize : Nat) (msg : List Nat) (hne : msg ≠ []) :
    blockGenerator blockSize msg ≠ [] := by
  cases hmsg : msg with
  | nil => exact absurd hmsg hne
  | cons d rest =>
    show blockGeneratorGo (blockSize >>> 3) (d :: rest).length (d :: rest) ≠ []
    exact List.cons_ne_nil _ _

theorem chunks_regen (blockSize : Nat) (hbb : 0 < blockSize >>> 3) :
    ∀ (bl : List (List Nat)) (fuel : Nat), chunksShaped (blockSize >>> 3) bl →
      bl.flatten.length ≤ fuel →
      blockGeneratorGo (blockSize >>> 3) fuel bl.flatten = bl := by
  intro bl
  induction bl with
  | nil =>
    intro fuel _ _
    exact blockGeneratorGo_nil _ fuel
  | cons b rest ih =>
    intro fuel hshape hfuel
    cases rest with
    | nil =>
      obtain ⟨hpos, hle⟩ : 0 < b.length ∧ b.length ≤ blockSize >>> 3 := hshape
      have hflat : ([b] : List (List Nat)).flatten = b := by simp
      rw [hflat] at hfuel ⊢
      cases hb : b with
      | nil => rw [hb] at hpos; simp at hpos
      | cons d t =>
        rw [hb] at hfuel hle
        cases fuel with
        | zero => simp at hfuel
        | succ n =>
          show ((d :: t).take (blockSize >>> 3)) ::
            blockGeneratorGo (blockSize >>> 3) n ((d :: t).drop (blockSize >>> 3)) = [d :: t]
          rw [List.take_of_length_le hle, List.drop_eq_nil_of_le hle, blockGeneratorGo_nil]
    | cons c t =>
      obtain ⟨hlen, hshape'⟩ : b.length = blockSize >>> 3 ∧
          lengthsShaped (blockSize >>> 3) ((c :: t).map List.length) := hshape
      cases hb : b with
      | nil =>
        rw [hb] at hlen
        simp at hlen
        omega
      | cons d u =>
        subst hb
        have hflat : (((d :: u) :: c :: t) : List (List Nat)).flatten =
            (d :: u) ++ (c :: t).flatten := by simp
        rw [hflat] at hfuel ⊢
        cases fuel with
        | zero => simp at hfuel
        | succ n =>
          show (((d :: u) ++ (c :: t).flatten).take (blockSize >>> 3)) ::
            blockGeneratorGo (blockSize >>> 3) n
              (((d :: u) ++ (c :: t).flatten).drop (blockSize >>> 3)) = (d :: u) :: c :: t
          have htake : ((d :: u) ++ (c :: t).flatten).take (blockSize >>> 3) = d :: u := by
            rw [← hlen]
            exact List.take_left _ _
          have hdrop : ((d :: u) ++ (c :: t).flatten).drop (blockSize >>> 3) =
              (c :: t).flatten := by
            rw [← hlen]
            exact List.drop_left _ _
          have hfuel2 : (c :: t).flatten.length ≤ n := by
            simp at hfuel ⊢
            omega
          rw [htake, hdrop, ih n hshape' hfuel2]

theorem getLast_replicate (v : Nat) : ∀ n, 0 < n → (List.replicate n v).getLast? = some v := by
  intro n
  induction n with
  | zero => intro h; omega
  | succ m ih =>
    intro _
    cases m with
    | zero => rfl
    | succ k =>
      have h1 : List.replicate (k + 2) v = v :: v :: List.replicate k v := rfl
      have h2 : List.replicate (k + 1) v = v :: List.replicate k v := rfl
      rw [h1, List.getLast?_cons_cons, ← h2]
      exact ih (by omega)

theorem getLast_append_replicate (b : List Nat) (n v : Nat) (h : 0 < n) :
    (b ++ List.replicate n v).getLast? = some v := by
  rw [List.getLast?_append, getLast_replicate v n h]
  rfl

theorem pySliceNeg_append_replicate (b : List Nat) (n v : Nat) (h : 0 < n) :
    pySliceNeg (b ++ List.replicate n v) n = b := by
  unfold pySliceNeg
  rw [if_neg (by omega)]
  have hlen : (b ++ List.replicate n v).length - n = b.length := by simp
  rw [hlen, List.take_left]

theorem pkcs7Pad_spec (blockSize : Nat) (hbb : 0 < blockSize >>> 3) :
    ∀ bl, chunksShaped (blockSize >>> 3) bl → bl ≠ [] →
      ∃ l, pkcs7Pad blockSize bl = some l ∧ l ≠ [] ∧
        (∀ c ∈ l, c.length = blockSize >>> 3) ∧
        pkcs7Unpad blockSize l = some bl := by
  intro bl
  induction bl with
  | nil => intro _ hne; exact absurd rfl hne
  | cons b rest ih =>
    intro hshape _
    cases rest with
    | nil =>
      obtain ⟨hpos, hle⟩ : 0 < b.length ∧ b.length ≤ blockSize >>> 3 := hshape
      by_cases hfull : b.length = blockSize >>> 3
      · refine ⟨[b, List.replicate (blockSize >>> 3) (blockSize >>> 3)], ?_, by simp, ?_, ?_⟩
        · have h0 : blockSize >>> 3 - b.length = 0 := by omega
          simp [pkcs7Pad, h0]
        · intro c hc
          simp only [List.mem_cons, List.mem_singleton] at hc
          rcases hc with h | h | h
          · rw [h, hfull]
          · rw [h]; simp
          · simp at h
        · show (pkcs7Unpad blockSize [List.replicate (blockSize >>> 3) (blockSize >>> 3)]).map
            (fun r => b :: r) = some [b]
          show (match (List.replicate (blockSize >>> 3) (blockSize >>> 3)).getLast? with
            | none => none
            | some pb => if pb < blockSize >>> 3 then
                some [pySliceNeg (List.replicate (blockSize >>> 3) (blockSize >>> 3)) pb]
              else some []).map (fun r => b :: r) = some [b]
          rw [getLast_replicate _ _ hbb]
          simp
      · have hn0 : blockSize >>> 3 - b.length ≠ 0 := by omega
        have hnne : blockSize >>> 3 - b.length ≠ blockSize >>> 3 := by omega
        refine ⟨[b ++ List.replicate (blockSize >>> 3 - b.length) (blockSize >>> 3 - b.length)],
          ?_, by simp, ?_, ?_⟩
        · simp [pkcs7Pad, hn0, hnne]
        · intro c hc
          simp only [List.mem_singleton] at hc
          rw [hc]
          simp
          omega
        · show (match (b ++ List.replicate (blockSize >>> 3 - b.length)
              (blockSize >>> 3 - b.length)).getLast? with
            | none => none
            | some pb => if pb < blockSize >>> 3 then
                some [pySliceNeg (b ++ List.replicate (blockSize >>> 3 - b.length)
                  (blockSize >>> 3 - b.length)) pb]
              else some []) = some [b]
          rw [getLast_append_replicate _ _ _ (by omega)]
          show (if (blockSize >>> 3 - b.length) < blockSize >>> 3 then
              some [pySliceNeg (b ++ List.replicate (blockSize >>> 3 - b.length)
                (blockSize >>> 3 - b.length)) (blockSize >>> 3 - b.length)]
            else some []) = some [b]
          rw [if_pos (by omega), pySliceNeg_append_replicate _ _ _ (by omega)]
    | cons c t =>
      obtain ⟨hlen, hshape'⟩ : b.length = blockSize >>> 3 ∧
          lengthsShaped (blockSize >>> 3) ((c :: t).map List.length) := hshape
      obtain ⟨l, hpad, hlne, hfull, hunpad⟩ := ih hshape' (by simp)
      refine ⟨b :: l, ?_, by simp, ?_, ?_⟩
      · show (pkcs7Pad blockSize (c :: t)).map (fun r => b :: r) = some (b :: l)
        rw [hpad]
        rfl
      · intro d hd
        rcases List.mem_cons.mp hd with h | h
        · rw [h, hlen]
        · exact hfull d h
      · cases hl : l with
        | nil => exact absurd hl hlne
        | cons x y =>
          show (pkcs7Unpad blockSize (x :: y)).map (fun r => b :: r) = some (b :: c :: t)
          rw [← hl, hunpad]
          rfl

theorem allFull_shaped (bb : Nat) (hbb : 0 < bb) :
    ∀ l : List (List Nat), (∀ c ∈ l, c.length = bb) → chunksShaped bb l := by
  intro l
  induction l with
  | nil => intro _; trivial
  | cons x rest ih =>
    intro hfull
    cases rest with
    | nil =>
      show 0 < x.length ∧ x.length ≤ bb
      have hx := hfull x (by simp)
      omega
    | cons y t =>
      show x.length = bb ∧ lengthsShaped bb ((y :: t).map List.length)
      exact ⟨hfull x (by simp), ih (fun c hc => hfull c (by simp [hc]))⟩

theorem shaped_of_map_length (bb : Nat) (l l' : List (List Nat))
    (h : l'.map List.length = l.map List.length) (hs : chunksShaped bb l) :
    chunksShaped bb l' := by
  show lengthsShaped bb (l'.map List.length)
  rw [h]
  exact hs

theorem cbcEncryptBlocks_full (E : List Nat → List Nat) (bb : Nat)
    (hlen : ∀ b, b.length = bb → (E b).length = bb) :
    ∀ (bl : List (List Nat)) (prev : List Nat), (∀ b ∈ bl, b.length = bb) →
      ∀ c ∈ cbcEncryptBlocks E prev bl, c.length = bb := by
  intro bl
  induction bl with
  | nil => intro prev _ c hc; simp [cbcEncryptBlocks] at hc
  | cons b rest ih =>
    intro prev hfull c hc
    simp only [cbcEncryptBlocks] at hc
    rcases List.mem_cons.mp hc with h | h
    · rw [h]
      exact hlen _ (by rw [bytesXor_length]; exact hfull b (by simp))
    · exact ih _ (fun d hd => hfull d (by simp [hd])) c h

theorem cbcDecryptBlocks_inv (E D : List Nat → List Nat) (bb : Nat)
    (hED : ∀ b, b.length = bb → D (E b) = b) :
    ∀ (bl : List (List Nat)) (prev : List Nat), (∀ b ∈ bl, b.length = bb) →
      cbcDecryptBlocks D prev (cbcEncryptBlocks E prev bl) = bl := by
  intro bl
  induction bl with
  | nil => intro prev _; rfl
  | cons b rest ih =>
    intro prev hfull
    show bytesXor (D (E (bytesXor b prev))) prev ::
      cbcDecryptBlocks D (E (bytesXor b prev)) (cbcEncryptBlocks E (E (bytesXor b prev)) rest) =
      b :: rest
    rw [hED _ (by rw [bytesXor_length]; exact hfull b (by simp)), bytesXor_cancel,
      ih _ (fun d hd => hfull d (by simp [hd]))]

theorem cfbEncryptSegs_lengths (E : List Nat → List Nat) :
    ∀ (segs : List (List Nat)) (iv : List Nat),
      (cfbEncryptSegs E iv segs).map List.length = segs.map List.length := by
  intro segs
  induction segs with
  | nil => intro iv; rfl
  | cons s rest ih =>
    intro iv
    show (bytesXor s ((E iv).take s.length)).length ::
      (cfbEncryptSegs E (iv.drop s.length ++ bytesXor s ((E iv).take s.length)) rest).map
        List.length = s.length :: rest.map List.length
    rw [bytesXor_length, ih]

theorem cfbDecryptSegs_inv (E : List Nat → List Nat) :
    ∀ (segs : List (List Nat)) (iv : List Nat),
      cfbDecryptSegs E iv (cfbEncryptSegs E iv segs) = segs := by
  intro segs
  induction segs with
  | nil => intro iv; rfl
  | cons s rest ih =>
    intro iv
    have hclen : (bytesXor s ((E iv).take s.length)).length = s.length := bytesXor_length _ _
    show bytesXor (bytesXor s ((E iv).take s.length))
        ((E iv).take (bytesXor s ((E iv).take s.length)).length) ::
      cfbDecryptSegs E
        (iv.drop (bytesXor (bytesXor s ((E iv).take s.length))
            ((E iv).take (bytesXor s ((E iv).take s.length)).length)).length ++
          bytesXor s ((E iv).take s.length))
        (cfbEncryptSegs E (iv.drop s.length ++ bytesXor s ((E iv).take s.length)) rest) =
      s :: rest
    rw [hclen, bytesXor_cancel]
    rw [ih (iv.drop s.length ++ bytesXor s ((E iv).take s.length))]

theorem ofbEncryptSegs_lengths (E : List Nat → List Nat) :
    ∀ (segs : List (List Nat)) (o : List Nat),
      (ofbEncryptSegs E o segs).map List.length = segs.map List.length := by
  intro segs
  induction segs with
  | nil => intro o; rfl
  | cons p rest ih =>
    intro o
    show (bytesXor p (E o)).length :: (ofbEncryptSegs E (E o) rest).map List.length =
      p.length :: rest.map List.length
    rw [bytesXor_length, ih]

theorem ofbEncryptSegs_inv (E : List Nat → List Nat) :
    ∀ (segs : List (List Nat)) (o : List Nat),
      ofbEncryptSegs E o (ofbEncryptSegs E o segs) = segs := by
  intro segs
  induction segs with
  | nil => intro o; rfl
  | cons p rest ih =>
    intro o
    show bytesXor (bytesXor p (E o)) (E o) ::
      ofbEncryptSegs E (E o) (ofbEncryptSegs E (E o) rest) = p :: rest
    rw [bytesXor_cancel, ih]

theorem ctrBlocks_lengths (E : List Nat → List Nat) (blockSize : Nat) :
    ∀ (bl : List (List Nat)) (iv : List Nat),
      (ctrBlocks E blockSize iv bl).map List.length = bl.map List.length := by
  intro bl
  induction bl with
  | nil => intro iv; rfl
  | cons b rest ih =>
    intro iv
    show (bytesXor b (E iv)).length ::
      (ctrBlocks E blockSize (ctrNextIV blockSize iv) rest).map List.length =
      b.length :: rest.map List.length
    rw [bytesXor_length, ih]

theorem ctrBlocks_inv (E : List Nat → List Nat) (blockSize : Nat) :
    ∀ (bl : List (List Nat)) (iv : List Nat),
      ctrBlocks E blockSize iv (ctrBlocks E blockSize iv bl) = bl := by
  intro bl
  induction bl with
  | nil => intro iv; rfl
  | cons b rest ih =>
    intro iv
    show bytesXor (bytesXor b (E iv)) (E iv) ::
      ctrBlocks E blockSize (ctrNextIV blockSize iv)
        (ctrBlocks E blockSize (ctrNextIV blockSize iv) rest) = b :: rest
    rw [bytesXor_cancel, ih]

/-- C2 (amended): for every mode of operation with its default padding
strategy and every NONEMPTY message (of any length, including messages
ending in zero bytes), splitting the message into blocks, encrypting,
decrypting, and concatenating the resulting blocks yields exactly the
message.  (The original claim also covered the empty message; see the
counterexample: the PKCS#7 pad generator evaluates `len(None)` on an
empty block stream and raises.) -/
theorem modes_decrypt_encrypt_nonempty
    (E D : List Nat → List Nat) (blockSize : Nat) (iv msg : List Nat)
    (hbb : 0 < blockSize >>> 3)
    (hElen : ∀ b, b.length = blockSize >>> 3 → (E b).length = blockSize >>> 3)
    (hED : ∀ b, b.length = blockSize >>> 3 → D (E b) = b)
    (hmsg : msg ≠ []) :
    (ecbEncrypt E blockSize msg).bind (ecbDecrypt D blockSize) = some msg ∧
    (cbcEncrypt E blockSize iv msg).bind (cbcDecrypt D blockSize iv) = some msg ∧
    cfbDecrypt E blockSize iv (cfbEncrypt E blockSize iv msg) = msg ∧
    ofbDecrypt E blockSize iv (ofbEncrypt E blockSize iv msg) = msg ∧
    (ctrEncrypt E blockSize iv msg).bind (ctrDecrypt E blockSize iv) = some msg := by
  have hbl_shape := blockGenerator_shape blockSize hbb msg hmsg
  have hbl_ne := blockGenerator_ne_nil blockSize msg hmsg
  have hbl_flat := blockGenerator_flatten blockSize hbb msg
  obtain ⟨l, hpad, hlne, hfull, hunpad⟩ :=
    pkcs7Pad_spec blockSize hbb (blockGenerator blockSize msg) hbl_shape hbl_ne
  have hDEl : ∀ l' : List (List Nat), (∀ c ∈ l', c.length = blockSize >>> 3) →
      (l'.map E).map D = l' := by
    intro l' hf
    rw [List.map_map]
    have hc : ∀ c ∈ l', (D ∘ E) c = id c := by
      intro c hc
      show D (E c) = c
      exact hED c (hf c hc)
    rw [List.map_congr_left hc, List.map_id]
  refine ⟨?_, ?_, ?_, ?_, ?_⟩
  · show (ecbEncrypt E blockSize msg).bind (ecbDecrypt D blockSize) = some msg
    unfold ecbEncrypt
    rw [hpad]
    show ecbDecrypt D blockSize ((l.map E).flatten) = some msg
    have hshapeE : chunksShaped (blockSize >>> 3) (l.map E) := by
      apply allFull_shaped _ hbb
      intro c hc
      obtain ⟨d, hd, hdc⟩ := List.mem_map.mp hc
      rw [← hdc]
      exact hElen d (hfull d hd)
    have hregen : blockGenerator blockSize ((l.map E).flatten) = l.map E :=
      chunks_regen blockSize hbb (l.map E) _ hshapeE (le_refl _)
    unfold ecbDecrypt
    rw [hregen, hDEl l hfull, hunpad]
    show some ((blockGenerator blockSize msg).flatten) = some msg
    rw [hbl_flat]
  · show (cbcEncrypt E blockSize iv msg).bind (cbcDecrypt D blockSize iv) = some msg
    unfold cbcEncrypt
    rw [hpad]
    show cbcDecrypt D blockSize iv ((cbcEncryptBlocks E iv l).flatten) = some msg
    have hctfull : ∀ c ∈ cbcEncryptBlocks E iv l, c.length = blockSize >>> 3 :=
      cbcEncryptBlocks_full E (blockSize >>> 3) hElen l iv hfull
    have hshapeC : chunksShaped (blockSize >>> 3) (cbcEncryptBlocks E iv l) :=
      allFull_shaped _ hbb _ hctfull
    have hregen : blockGenerator blockSize ((cbcEncryptBlocks E iv l).flatten) =
        cbcEncryptBlocks E iv l :=
      chunks_regen blockSize hbb _ _ hshapeC (le_refl _)
    unfold cbcDecrypt
    rw [hregen, cbcDecryptBlocks_inv E D (blockSize >>> 3) hED l iv hfull, hunpad]
    show some ((blockGenerator blockSize msg).flatten) = some msg
    rw [hbl_flat]
  · show cfbDecrypt E blockSize iv (cfbEncrypt E blockSize iv msg) = msg
    unfold cfbEncrypt cfbDecrypt
    have hshapeC : chunksShaped (blockSize >>> 3)
        (cfbEncryptSegs E iv (blockGenerator blockSize msg)) :=
      shaped_of_map_length _ _ _ (cfbEncryptSegs_lengths E _ iv) hbl_shape
    have hregen : blockGenerator blockSize
        ((cfbEncryptSegs E iv (blockGenerator blockSize msg)).flatten) =
        cfbEncryptSegs E iv (blockGenerator blockSize msg) :=
      chunks_regen blockSize hbb _ _ hshapeC (le_refl _)
    rw [hregen, cfbDecryptSegs_inv E (blockGenerator blockSize msg) iv, hbl_flat]
  · show ofbDecrypt E blockSize iv (ofbEncrypt E blockSize iv msg) = msg
    unfold ofbEncrypt ofbDecrypt
    have hshapeC : chunksShaped (blockSize >>> 3)
        (ofbEncryptSegs E iv (blockGenerator blockSize msg)) :=
      shaped_of_map_length _ _ _ (ofbEncryptSegs_lengths E _ iv) hbl_shape
    have hregen : blockGenerator blockSize
        ((ofbEncryptSegs E iv (blockGenerator blockSize msg)).flatten) =
        ofbEncryptSegs E iv (blockGenerator blockSize msg) :=
      chunks_regen blockSize hbb _ _ hshapeC (le_refl _)
    rw [hregen, ofbEncryptSegs_inv E (blockGenerator blockSize msg) iv, hbl_flat]
  · show (ctrEncrypt E blockSize iv msg).bind (ctrDecrypt E blockSize iv) = some msg
    unfold ctrEncrypt
    rw [hpad]
    show ctrDecrypt E blockSize iv ((ctrBlocks E blockSize iv l).flatten) = some msg
    have hshapeC : chunksShaped (blockSize >>> 3) (ctrBlocks E blockSize iv l) :=
      shaped_of_map_length _ _ _ (ctrBlocks_lengths E blockSize l iv)
        (allFull_shaped _ hbb l hfull)
    have hregen : blockGenerator blockSize ((ctrBlocks E blockSize iv l).flatten) =
        ctrBlocks E blockSize iv l :=
      chunks_regen blockSize hbb _ _ hshapeC (le_refl _)
    unfold ctrDecrypt
    rw [hregen, ctrBlocks_inv E blockSize l iv, hunpad]
    show some ((blockGenerator blockSize msg).flatten) = some msg
    rw [hbl_flat]

/-- Counterexample to C2 as stated: with the ECB mode of operation (whose
default padding is PKCS#7) over a 64-bit-block cipher, the empty message
does not round-trip — the pad generator evaluates `len(None)` on the empty
block stream and raises, so encryption returns no ciphertext at all. -/
theorem modes_roundtrip_empty_fails :
    (ecbEncrypt (fun b => b.map (fun v => 255 ^^^ v)) 64 []).bind
      (ecbDecrypt (fun b => b.map (fun v => 255 ^^^ v)) 64) ≠ some [] := by decide

theorem complement_invol (b : List Nat) :
    (b.map (fun v => 255 ^^^ v)).map (fun v => 255 ^^^ v) = b := by
  rw [List.map_map]
  have hc : ∀ v ∈ b, ((fun v => 255 ^^^ v) ∘ fun v => 255 ^^^ v) v = id v := by
    intro v _
    show 255 ^^^ (255 ^^^ v) = v
    rw [← Nat.xor_assoc, Nat.xor_self, Nat.zero_xor]
  rw [List.map_congr_left hc, List.map_id]

/-- Witness for the amended C2 at a concrete cipher (byte-wise
complement), IV, and 3-byte message over 64-bit blocks. -/
theorem modes_decrypt_encrypt_nonempty_witness :
    ((ecbEncrypt (fun b => b.map (fun v => 255 ^^^ v)) 64 [1, 2, 3]).bind
      (ecbDecrypt (fun b => b.map (fun v => 255 ^^^ v)) 64) = some [1, 2, 3]) ∧
    ((cbcEncrypt (fun b => b.map (fun v => 255 ^^^ v)) 64 [9, 9, 9, 9, 9, 9, 9, 9]
        [1, 2, 3]).bind
      (cbcDecrypt (fun b => b.map (fun v => 255 ^^^ v)) 64 [9, 9, 9, 9, 9, 9, 9, 9]) =
      some [1, 2, 3]) ∧
    cfbDecrypt (fun b => b.map (fun v => 255 ^^^ v)) 64 [9, 9, 9, 9, 9, 9, 9, 9]
      (cfbEncrypt (fun b => b.map (fun v => 255 ^^^ v)) 64 [9, 9, 9, 9, 9, 9, 9, 9]
        [1, 2, 3]) = [1, 2, 3] ∧
    ofbDecrypt (fun b => b.map (fun v => 255 ^^^ v)) 64 [9, 9, 9, 9, 9, 9, 9, 9]
      (ofbEncrypt (fun b => b.map (fun v => 255 ^^^ v)) 64 [9, 9, 9, 9, 9, 9, 9, 9]
        [1, 2, 3]) = [1, 2, 3] ∧
    ((ctrEncrypt (fun b => b.map (fun v => 255 ^^^ v)) 64 [9, 9, 9, 9, 9, 9, 9, 9]
        [1, 2, 3]).bind
      (ctrDecrypt (fun b => b.map (fun v => 255 ^^^ v)) 64 [9, 9, 9, 9, 9, 9, 9, 9]) =
      some [1, 2, 3]) :=
  modes_decrypt_encrypt_nonempty (fun b => b.map (fun v => 255 ^^^ v))
    (fun b => b.map (fun v => 255 ^^^ v)) 64 [9, 9, 9, 9, 9, 9, 9, 9] [1, 2, 3]
    (by decide) (fun b hb => by rw [List.length_map]; exact hb)
    (fun b _ => complement_invol b) (by decide)

theorem pkcs7Unpad_cons (blockSize : Nat) (x : List Nat) (rest : List (List Nat))
    (h : rest ≠ []) :
    pkcs7Unpad blockSize (x :: rest) = (pkcs7Unpad blockSize rest).map (fun r => x :: r) := by
  cases rest with
  | nil => exact absurd rfl h
  | cons y t => rfl

/-- Counterexample to C6 as stated: the final byte 200 is not a valid pad
count for 8-byte blocks, yet `PadPKCS7.unpad` raises nothing — the final
block is silently dropped (`pad_byte < block_bytes` is false, so the block
is never yielded) and the stream ends normally. -/
theorem pkcs7Unpad_invalid_count_no_error :
    pkcs7Unpad 64 [[1, 2, 3, 4, 5, 6, 7, 200]] = some [] := by decide

/-- C6 (amended): `PadPKCS7.unpad` reads the final byte n of the final
block; when n < block_bytes it emits `block[:-n]` (so it strips exactly n
bytes for 0 < n, and the whole block for n = 0), and when
n ≥ block_bytes it silently drops the final block; it never raises a
PaddingError and never checks the stripped bytes; on every well-padded
input (the output of `PadPKCS7.pad` on chunk-shaped blocks) it succeeds
and recovers the original blocks. -/
theorem pkcs7Unpad_behaviour :
    (∀ (blockSize : Nat) (init : List (List Nat)) (b : List Nat) (hb : b ≠ []),
      pkcs7Unpad blockSize (init ++ [b]) =
        some (init ++ (if b.getLast hb < blockSize >>> 3 then
          [pySliceNeg b (b.getLast hb)] else []))) ∧
    (∀ (blockSize : Nat) (bl : List (List Nat)), 0 < blockSize >>> 3 →
      chunksShaped (blockSize >>> 3) bl → bl ≠ [] →
      (pkcs7Pad blockSize bl).bind (pkcs7Unpad blockSize) = some bl) := by
  constructor
  · intro blockSize init
    induction init with
    | nil =>
      intro b hb
      show (match b.getLast? with
        | none => none
        | some pb => if pb < blockSize >>> 3 then some [pySliceNeg b pb] else some []) =
        some ([] ++ (if b.getLast hb < blockSize >>> 3 then
          [pySliceNeg b (b.getLast hb)] else []))
      rw [List.getLast?_eq_getLast b hb]
      show (if b.getLast hb < blockSize >>> 3 then some [pySliceNeg b (b.getLast hb)]
        else some []) = some ([] ++ (if b.getLast hb < blockSize >>> 3 then
          [pySliceNeg b (b.getLast hb)] else []))
      by_cases hlt : b.getLast hb < blockSize >>> 3
      · rw [if_pos hlt, if_pos hlt]
        simp
      · rw [if_neg hlt, if_neg hlt]
        simp
    | cons x init ih =>
      intro b hb
      have happ : (x :: init) ++ [b] = x :: (init ++ [b]) := rfl
      have hne : init ++ [b] ≠ [] := by simp
      rw [happ, pkcs7Unpad_cons blockSize x (init ++ [b]) hne, ih b hb]
      simp
  · intro blockSize bl hbb hshape hne
    obtain ⟨l, hpad, _, _, hunpad⟩ := pkcs7Pad_spec blockSize hbb bl hshape hne
    rw [hpad]
    show pkcs7Unpad blockSize l = some bl
    exact hunpad

/-- Witness for the amended C6 at concrete inputs: a two-block stream whose
final byte 2 strips two bytes, and a well-padded 3-byte message. -/
theorem pkcs7Unpad_behaviour_witness :
    (pkcs7Unpad 64 ([[9, 9, 9, 9, 9, 9, 9, 9]] ++ [[1, 2, 3, 4, 5, 6, 7, 2]]) =
      some [[9, 9, 9, 9, 9, 9, 9, 9], [1, 2, 3, 4, 5, 6]]) ∧
    ((pkcs7Pad 64 [[1, 2, 3]]).bind (pkcs7Unpad 64) = some [[1, 2, 3]]) := by
  constructor
  · have h := pkcs7Unpad_behaviour.1 64 [[9, 9, 9, 9, 9, 9, 9, 9]]
      [1, 2, 3, 4, 5, 6, 7, 2] (by decide)
    rw [h]
    decide
  · exact pkcs7Unpad_behaviour.2 64 [[1, 2, 3]] (by decide) ⟨by decide, by decide⟩
      (by decide)

/-- Uniform interface of a mode of operation, as stored in the
mode-selection dictionary of src/prelim2/operation.py: an encrypt and a
decrypt transform, each given the block-cipher primitive the mode feeds
its blocks to, the block size in bits, the IV (ignored by ECB) and the
data. -/
structure ModeOps where
  encryptOp : (List Nat → List Nat) → Nat → List Nat → List Nat → Option (List Nat)
  decryptOp : (List Nat → List Nat) → Nat → List Nat → List Nat → Option (List Nat)

/-- ECB as a dictionary entry. -/
def ElectronicCodeBookMode : ModeOps :=
  ⟨fun E bS _ msg => ecbEncrypt E bS msg, fun D bS _ ct => ecbDecrypt D bS ct⟩

/-- CBC as a dictionary entry. -/
def CipherBlockChainingMode : ModeOps :=
  ⟨fun E bS iv msg => cbcEncrypt E bS iv msg, fun D bS iv ct => cbcDecrypt D bS iv ct⟩

/-- CFB as a dictionary entry (its decrypt uses the cipher encrypt). -/
def CipherFeedBackMode : ModeOps :=
  ⟨fun E bS iv msg => some (cfbEncrypt E bS iv msg),
   fun E bS iv ct => some (cfbDecrypt E bS iv ct)⟩

/-- OFB as a dictionary entry (modelled from the spec, the module file
being absent from src/). -/
def OutputFeedBackMode : ModeOps :=
  ⟨fun E bS iv msg => some (ofbEncrypt E bS iv msg),
   fun E bS iv ct => some (ofbDecrypt E bS iv ct)⟩

/-- CTR as a dictionary entry (its decrypt uses the cipher encrypt). -/
def CounterMode : ModeOps :=
  ⟨fun E bS iv msg => ctrEncrypt E bS iv msg, fun E bS iv ct => ctrDecrypt E bS iv ct⟩

/-- Translation of MODE_OF_OPERATIONS_DICT (src/prelim2/operation.py). -/
def MODE_OF_OPERATIONS_DICT : List (String × ModeOps) :=
  [("ECB", ElectronicCodeBookMode),
   ("CBC", CipherBlockChainingMode),
   ("CFB", CipherFeedBackMode),
   ("OFB", OutputFeedBackMode),
   ("CTR", CounterMode)]

/-- C8: the library exposes an OFB mode under the key "OFB" of the
mode-selection dictionary, and for every cipher, IV, and plaintext block
sequence its i-th ciphertext block is `P_i xor O_i` for the keystream
`O_i = E_K(O_(i-1))`, `O_0 = IV` (that is, `O_i = E^(i+1)(IV)` for the
0-indexed block i). -/
theorem OFB_exposed_and_keystream :
    MODE_OF_OPERATIONS_DICT.lookup "OFB" = some OutputFeedBackMode ∧
    ∀ (E : List Nat → List Nat) (iv : List Nat) (segs : List (List Nat)) (i : Nat)
      (hi : i < segs.length),
      (ofbEncryptSegs E iv segs).get? i =
        some (bytesXor (segs.get ⟨i, hi⟩) (E^[i + 1] iv)) := by
  constructor
  · rfl
  · intro E iv segs
    induction segs generalizing iv with
    | nil => intro i hi; simp at hi
    | cons p rest ih =>
      intro i hi
      cases i with
      | zero =>
        show some (bytesXor p (E iv)) = some (bytesXor p (E^[0 + 1] iv))
        rw [Function.iterate_one]
      | succ j =>
        have hj : j < rest.length := by simpa using hi
        show (ofbEncryptSegs E (E iv) rest).get? j =
          some (bytesXor ((p :: rest).get ⟨j + 1, hi⟩) (E^[j + 1 + 1] iv))
        have hg : ((p :: rest).get ⟨j + 1, hi⟩) = rest.get ⟨j, hj⟩ := rfl
        have hit : E^[j + 1 + 1] iv = E^[j + 1] (E iv) :=
          Function.iterate_succ_apply E (j + 1) iv
        rw [hg, hit, ih (E iv) j hj]

/-- Witness for C8 at a concrete cipher, IV and block sequence. -/
theorem OFB_exposed_and_keystream_witness :
    (ofbEncryptSegs (fun b => b.map (fun v => 255 ^^^ v)) [9, 9] [[1, 2], [3, 4]]).get? 1 =
      some (bytesXor (([[1, 2], [3, 4]] : List (List Nat)).get ⟨1, by decide⟩)
        ((fun b => b.map (fun v => 255 ^^^ v))^[1 + 1] [9, 9])) :=
  OFB_exposed_and_keystream.2 (fun b => b.map (fun v => 255 ^^^ v)) [9, 9]
    [[1, 2], [3, 4]] 1 (by decide)

/-! Shared padding-strategy state (src/prelim2/modes/padding/__init__.py
and src/prelim2/modes/core.py).  Each `PaddingMode` enum member holds a
SINGLE strategy object created at module import (`PAD_NONE = PadNone()`,
`PAD_ZEROS = PadZeros()`, `PAD_PKCS7 = PadPKCS7()`), and the member's
`block_size` setter writes through to that shared object.  The one
mutable `_block_size` cell per member is modelled as explicit state. -/

/-- The three `PaddingMode` enum members. -/
inductive PaddingKind where
  | padNone
  | padZeros
  | padPKCS7

/-- The module-level mutable state: the `_block_size` cell of each of the
three shared strategy objects (None until first assigned). -/
structure PaddingModeState where
  noneSize : Option Nat
  zerosSize : Option Nat
  pkcs7Size : Option Nat

/-- The `PaddingMode.block_size` setter: writes the shared object's cell. -/
def setPaddingBlockSize (k : PaddingKind) (size : Nat) (st : PaddingModeState) :
    PaddingModeState :=
  match k with
  | .padNone => { st with noneSize := some size }
  | .padZeros => { st with zerosSize := some size }
  | .padPKCS7 => { st with pkcs7Size := some size }

/-- The `PaddingMode.block_size` getter: reads the shared object's cell. -/
def getPaddingBlockSize (k : PaddingKind) (st : PaddingModeState) : Option Nat :=
  match k with
  | .padNone => st.noneSize
  | .padZeros => st.zerosSize
  | .padPKCS7 => st.pkcs7Size

/-- Translation of `ModeOfOperation.__init__`
(`self.padding_mode.block_size = self.block_size`): every mode constructor
assigns its own block size to the shared strategy object of the chosen
member. -/
def modeOfOperationInit (k : PaddingKind) (blockSize : Nat) (st : PaddingModeState) :
    PaddingModeState :=
  setPaddingBlockSize k blockSize st

/-- Translation of `PaddingMode.pad`: dispatch to the shared strategy
object using its CURRENT `block_size` (an unset block size raises
AttributeError in `pad`, modelled as `none`). -/
def paddingModePad (k : PaddingKind) (st : PaddingModeState) (bl : List (List Nat)) :
    Option (List (List Nat)) :=
  match getPaddingBlockSize k st with
  | none => none
  | some bS =>
    match k with
    | .padNone => some bl
    | .padZeros => padZerosPad bS bl
    | .padPKCS7 => pkcs7Pad bS bl

/-- C10: each PaddingMode member is one shared strategy object whose
`block_size` every ModeOfOperation constructor overwrites: after a second
mode is constructed with block size bs2 over the same member, the member's
block size is bs2, the first mode's subsequent pad goes through bs2, and
concretely (PKCS#7, bs1 = 64, bs2 = 128) the first mode's pad result
differs from what its own construction block size would give. -/
theorem padding_block_size_shared (st : PaddingModeState) (bs1 bs2 : Nat)
    (bl : List (List Nat)) :
    (∀ k : PaddingKind, getPaddingBlockSize k
      (modeOfOperationInit k bs2 (modeOfOperationInit k bs1 st)) = some bs2) ∧
    paddingModePad .padPKCS7
      (modeOfOperationInit .padPKCS7 bs2 (modeOfOperationInit .padPKCS7 bs1 st)) bl =
      pkcs7Pad bs2 bl ∧
    paddingModePad .padPKCS7
      (modeOfOperationInit .padPKCS7 128 (modeOfOperationInit .padPKCS7 64 st))
      [[1, 2, 3, 4]] ≠ pkcs7Pad 64 [[1, 2, 3, 4]] := by
  refine ⟨?_, rfl, ?_⟩
  · intro k
    cases k <;> rfl
  · show pkcs7Pad 128 [[1, 2, 3, 4]] ≠ pkcs7Pad 64 [[1, 2, 3, 4]]
    decide

/-! CLEFIA (src/prelim2/cipher/raw_cipher/clefia.py), 256-bit key path as
driven by the `Clefia` wrapper class (src/prelim2/cipher/clefia.py).  The
source keeps `rk`, `wk`, `nr`, `nrk` as module-level variables that every
call to `setKey` overwrites; that module state is modelled as an explicit
`ClefiaState` produced by `clefiaSetKey` (the constructor path) and read
by `clefiaEnc`, making the sharing between instances explicit. -/

/-- First CLEFIA S-box `s0`. -/
def clefiaS0 : List Nat :=
  [0x57, 0x49, 0xD1, 0xC6, 0x2F, 0x33, 0x74, 0xFB, 0x95, 0x6D, 0x82, 0xEA,
   0x0E, 0xB0, 0xA8, 0x1C, 0x28, 0xD0, 0x4B, 0x92, 0x5C, 0xEE, 0x85, 0xB1,
   0xC4, 0x0A, 0x76, 0x3D, 0x63, 0xF9, 0x17, 0xAF, 0xBF, 0xA1, 0x19, 0x65,
   0xF7, 0x7A, 0x32, 0x20, 0x06, 0xCE, 0xE4, 0x83, 0x9D, 0x5B, 0x4C, 0xD8,
   0x42, 0x5D, 0x2E, 0xE8, 0xD4, 0x9B, 0x0F, 0x13, 0x3C, 0x89, 0x67, 0xC0,
   0x71, 0xAA, 0xB6, 0xF5, 0xA4, 0xBE, 0xFD, 0x8C, 0x12, 0x00, 0x97, 0xDA,
   0x78, 0xE1, 0xCF, 0x6B, 0x39, 0x43, 0x55, 0x26, 0x30, 0x98, 0xCC, 0xDD,
   0xEB, 0x54, 0xB3, 0x8F, 0x4E, 0x16, 0xFA, 0x22, 0xA5, 0x77, 0x09, 0x61,
   0xD6, 0x2A, 0x53, 0x37, 0x45, 0xC1, 0x6C, 0xAE, 0xEF, 0x70, 0x08, 0x99,
   0x8B, 0x1D, 0xF2, 0xB4, 0xE9, 0xC7, 0x9F, 0x4A, 0x31, 0x25, 0xFE, 0x7C,
   0xD3, 0xA2, 0xBD, 0x56, 0x14, 0x88, 0x60, 0x0B, 0xCD, 0xE2, 0x34, 0x50,
   0x9E, 0xDC, 0x11, 0x05, 0x2B, 0xB7, 0xA9, 0x48, 0xFF, 0x66, 0x8A, 0x73,
   0x03, 0x75, 0x86, 0xF1, 0x6A, 0xA7, 0x40, 0xC2, 0xB9, 0x2C, 0xDB, 0x1F,
   0x58, 0x94, 0x3E, 0xED, 0xFC, 0x1B, 0xA0, 0x04, 0xB8, 0x8D, 0xE6, 0x59,
   0x62, 0x93, 0x35, 0x7E, 0xCA, 0x21, 0xDF, 0x47, 0x15, 0xF3, 0xBA, 0x7F,
   0xA6, 0x69, 0xC8, 0x4D, 0x87, 0x3B, 0x9C, 0x01, 0xE0, 0xDE, 0x24, 0x52,
   0x7B, 0x0C, 0x68, 0x1E, 0x80, 0xB2, 0x5A, 0xE7, 0xAD, 0xD5, 0x23, 0xF4,
   0x46, 0x3F, 0x91, 0xC9, 0x6E, 0x84, 0x72, 0xBB, 0x0D, 0x18, 0xD9, 0x96,
   0xF0, 0x5F, 0x41, 0xAC, 0x27, 0xC5, 0xE3, 0x3A, 0x81, 0x6F, 0x07, 0xA3,
   0x79, 0xF6, 0x2D, 0x38, 0x1A, 0x44, 0x5E, 0xB5, 0xD2, 0xEC, 0xCB, 0x90,
   0x9A, 0x36, 0xE5, 0x29, 0xC3, 0x4F, 0xAB, 0x64, 0x51, 0xF8, 0x10, 0xD7,
   0xBC, 0x02, 0x7D, 0x8E]

/-- Second CLEFIA S-box `s1`. -/
def clefiaS1 : List Nat :=
  [0x6C, 0xDA, 0xC3, 0xE9, 0x4E, 0x9D, 0x0A, 0x3D, 0xB8, 0x36, 0xB4, 0x38,
   0x13, 0x34, 0x0C, 0xD9, 0xBF, 0x74, 0x94, 0x8F, 0xB7, 0x9C, 0xE5, 0xDC,
   0x9E, 0x07, 0x49, 0x4F, 0x98, 0x2C, 0xB0, 0x93, 0x12, 0xEB, 0xCD, 0xB3,
   0x92, 0xE7, 0x41, 0x60, 0xE3, 0x21, 0x27, 0x3B, 0xE6, 0x19, 0xD2, 0x0E,
   0x91, 0x11, 0xC7, 0x3F, 0x2A, 0x8E, 0xA1, 0xBC, 0x2B, 0xC8, 0xC5, 0x0F,
   0x5B, 0xF3, 0x87, 0x8B, 0xFB, 0xF5, 0xDE, 0x20, 0xC6, 0xA7, 0x84, 0xCE,
   0xD8, 0x65, 0x51, 0xC9, 0xA4, 0xEF, 0x43, 0x53, 0x25, 0x5D, 0x9B, 0x31,
   0xE8, 0x3E, 0x0D, 0xD7, 0x80, 0xFF, 0x69, 0x8A, 0xBA, 0x0B, 0x73, 0x5C,
   0x6E, 0x54, 0x15, 0x62, 0xF6, 0x35, 0x30, 0x52, 0xA3, 0x16, 0xD3, 0x28,
   0x32, 0xFA, 0xAA, 0x5E, 0xCF, 0xEA, 0xED, 0x78, 0x33, 0x58, 0x09, 0x7B,
   0x63, 0xC0, 0xC1, 0x46, 0x1E, 0xDF, 0xA9, 0x99, 0x55, 0x04, 0xC4, 0x86,
   0x39, 0x77, 0x82, 0xEC, 0x40, 0x18, 0x90, 0x97, 0x59, 0xDD, 0x83, 0x1F,
   0x9A, 0x37, 0x06, 0x24, 0x64, 0x7C, 0xA5, 0x56, 0x48, 0x08, 0x85, 0xD0,
   0x61, 0x26, 0xCA, 0x6F, 0x7E, 0x6A, 0xB6, 0x71, 0xA0, 0x70, 0x05, 0xD1,
   0x45, 0x8C, 0x23, 0x1C, 0xF0, 0xEE, 0x89, 0xAD, 0x7A, 0x4B, 0xC2, 0x2F,
   0xDB, 0x5A, 0x4D, 0x76, 0x67, 0x17, 0x2D, 0xF4, 0xCB, 0xB1, 0x4A, 0xA8,
   0xB5, 0x22, 0x47, 0x3A, 0xD5, 0x10, 0x4C, 0x72, 0xCC, 0x00, 0xF9, 0xE0,
   0xFD, 0xE2, 0xFE, 0xAE, 0xF8, 0x5F, 0xAB, 0xF1, 0x1B, 0x42, 0x81, 0xD6,
   0xBE, 0x44, 0x29, 0xA6, 0x57, 0xB9, 0xAF, 0xF2, 0xD4, 0x75, 0x66, 0xBB,
   0x68, 0x9F, 0x50, 0x02, 0x01, 0x3C, 0x7F, 0x8D, 0x1A, 0x88, 0xBD, 0xAC,
   0xF7, 0xE4, 0x79, 0x96, 0xA2, 0xFC, 0x6D, 0xB2, 0x6B, 0x03, 0xE1, 0x2E,
   0x7D, 0x14, 0x95, 0x1D]

/-- Diffusion matrix `m0`. -/
def clefiaM0 : List Nat :=
  [0x01, 0x02, 0x04, 0x06, 0x02, 0x01, 0x06, 0x04, 0x04, 0x06, 0x01, 0x02,
   0x06, 0x04, 0x02, 0x01]

/-- Diffusion matrix `m1`. -/
def clefiaM1 : List Nat :=
  [0x01, 0x08, 0x02, 0x0A, 0x08, 0x01, 0x0A, 0x02, 0x02, 0x0A, 0x01, 0x08,
   0x0A, 0x02, 0x08, 0x01]

/-- Key-schedule constants `con256`. -/
def clefiaCon256 : List Nat :=
  [0x0221947E, 0x6E00C0B5, 0xED014A3F, 0x8120E05A,
   0x9A91A51F, 0xF6B0702D, 0xA159D28F, 0xCD78B816,
   0xBCBDE947, 0xD09C5C0B, 0xB24FF4A3, 0xDE6EAE05,
   0xB536FA51, 0xD917D702, 0x62925518, 0x0EB373D5,
   0x094082BC, 0x6561A1BE, 0x3CA9E96E, 0x5088488B,
   0xF24574B7, 0x9E64A445, 0x9533BA5B, 0xF912D222,
   0xA688DD2D, 0xCAA96911, 0x6B4D46A6, 0x076CACDC,
   0xD9B72353, 0xB596566E, 0x80CA91A9, 0xECEB2B37,
   0x786C60E4, 0x144D8DCF, 0x043F9842, 0x681EDEB3,
   0xEE0E4C21, 0x822FEF59, 0x4F0E0E20, 0x232FEFF8,
   0x1F8EAF20, 0x73AF6FA8, 0x37CEFFA0, 0x5BEF2F80,
   0x23EED7E0, 0x4FCF0F94, 0x29FEC3C0, 0x45DF1F9E,
   0x2CF6C9D0, 0x40D7179B, 0x2E72CCD8, 0x42539399,
   0x2F30CE5C, 0x4311D198, 0x2F91CF1E, 0x43B07098,
   0xFBD9678F, 0x97F8384C, 0x91FDB3C7, 0xFDDC1C26,
   0xA4EFD9E3, 0xC8CE0E13, 0xBE66ECF1, 0xD2478709,
   0x673A5E48, 0x0B1BDBD0, 0x0B948714, 0x67B575BC,
   0x3DC3EBBA, 0x51E2228A, 0xF2F075DD, 0x9ED11145,
   0x417112DE, 0x2D5090F6, 0xCCA9096F, 0xA088487B,
   0x8A4584B7, 0xE664A43D, 0xA933C25B, 0xC512D21E,
   0xB888E12D, 0xD4A9690F, 0x644D58A6, 0x086CACD3,
   0xDE372C53, 0xB216D669, 0x830A9629, 0xEF2BEB34,
   0x798C6324, 0x15AD6DCE, 0x04CF99A2, 0x68EE2EB3]

/-- Translation of `_32To8`. -/
def clefia32To8 (x : Nat) : List Nat :=
  [(x >>> 24) &&& 0xFF, (x >>> 16) &&& 0xFF, (x >>> 8) &&& 0xFF, x &&& 0xFF]

/-- Translation of `_8To32`. -/
def clefia8To32 (b : List Nat) : Nat :=
  ((b.getD 0 0 * 256 + b.getD 1 0) * 256 + b.getD 2 0) * 256 + b.getD 3 0

/-- Translation of `_128To32`. -/
def clefia128To32 (x : Nat) : List Nat :=
  [(x >>> 96) &&& 0xFFFFFFFF, (x >>> 64) &&& 0xFFFFFFFF,
   (x >>> 32) &&& 0xFFFFFFFF, x &&& 0xFFFFFFFF]

/-- Translation of `_32To128`. -/
def clefia32To128 (u : List Nat) : Nat :=
  ((u.getD 0 0 * 2 ^ 32 + u.getD 1 0) * 2 ^ 32 + u.getD 2 0) * 2 ^ 32 + u.getD 3 0

/-- Translation of `_256To32`. -/
def clefia256To32 (x : Nat) : List Nat :=
  (List.range 8).map (fun i => (x >>> (32 * (7 - i))) &&& 0xFFFFFFFF)

/-- Translation of `sigma`, the fixed 128-bit permutation used between
round-key derivations. -/
def clefiaSigma (x : List Nat) : List Nat :=
  [((x.getD 0 0 <<< 7) &&& 0xFFFFFF80) ||| (x.getD 1 0 >>> 25),
   ((x.getD 1 0 <<< 7) &&& 0xFFFFFF80) ||| (x.getD 3 0 &&& 0x7F),
   (x.getD 0 0 &&& 0xFE000000) ||| (x.getD 2 0 >>> 7),
   ((x.getD 2 0 <<< 25) &&& 0xFE000000) ||| (x.getD 3 0 >>> 7)]

/-- Translation of the polynomial-multiplication loop `mult` inside
`mMult`: the loop runs at most once per bit of `p2`, so `p2` itself
bounds the iteration count and serves as structural fuel. -/
def gfMultGo : Nat → Nat → Nat → Nat → Nat
  | 0, _, _, acc => acc
  | fuel + 1, p1, p2, acc =>
    if p2 = 0 then acc
    else
      gfMultGo fuel
        (if (p1 <<< 1) &&& 256 ≠ 0 then (p1 <<< 1) ^^^ 0x1D else p1 <<< 1)
        (p2 >>> 1)
        (if p2 &&& 1 ≠ 0 then acc ^^^ p1 else acc)

/-- GF(2^8) product with reduction bits 0x1D (`return p & 255`). -/
def gfMult (p1 p2 : Nat) : Nat := gfMultGo p2 p1 p2 0 &&& 255

/-- Translation of `mMult`: multiply a 4x4 matrix by a 1x4 vector. -/
def mMult (m u : List Nat) : List Nat :=
  (List.range 4).map (fun i =>
    (List.range 4).foldl (fun s j => s ^^^ gfMult (m.getD (4 * i + j) 0) (u.getD j 0)) 0)

/-- Translation of `f0`: S-box pattern (s0, s1, s0, s1) and matrix m0. -/
def clefiaF0 (rk x32 : Nat) : Nat :=
  clefia8To32 (mMult clefiaM0
    [clefiaS0.getD ((clefia32To8 (rk ^^^ x32)).getD 0 0) 0,
     clefiaS1.getD ((clefia32To8 (rk ^^^ x32)).getD 1 0) 0,
     clefiaS0.getD ((clefia32To8 (rk ^^^ x32)).getD 2 0) 0,
     clefiaS1.getD ((clefia32To8 (rk ^^^ x32)).getD 3 0) 0])

/-- Translation of `f1`: S-box pattern (s1, s0, s1, s0) and matrix m1. -/
def clefiaF1 (rk x32 : Nat) : Nat :=
  clefia8To32 (mMult clefiaM1
    [clefiaS1.getD ((clefia32To8 (rk ^^^ x32)).getD 0 0) 0,
     clefiaS0.getD ((clefia32To8 (rk ^^^ x32)).getD 1 0) 0,
     clefiaS1.getD ((clefia32To8 (rk ^^^ x32)).getD 2 0) 0,
     clefiaS0.getD ((clefia32To8 (rk ^^^ x32)).getD 3 0) 0])

/-- One round of `gfn4`: two F applications then a left rotation of the
four-branch state. -/
def clefiaGfn4Round (rks : List Nat) (u : List Nat) (i : Nat) : List Nat :=
  [u.getD 1 0 ^^^ clefiaF0 (rks.getD (2 * i) 0) (u.getD 0 0),
   u.getD 2 0,
   u.getD 3 0 ^^^ clefiaF1 (rks.getD (2 * i + 1) 0) (u.getD 2 0),
   u.getD 0 0]

/-- Translation of `gfn4`: n rounds then a right rotation. -/
def clefiaGfn4 (rks : List Nat) (x32 : List Nat) (n : Nat) : List Nat :=
  [((List.range n).foldl (clefiaGfn4Round rks) x32).getD 3 0,
   ((List.range n).foldl (clefiaGfn4Round rks) x32).getD 0 0,
   ((List.range n).foldl (clefiaGfn4Round rks) x32).getD 1 0,
   ((List.range n).foldl (clefiaGfn4Round rks) x32).getD 2 0]

/-- One round of `gfn8`: four F applications then a left rotation of the
eight-branch state. -/
def clefiaGfn8Round (rks : List Nat) (u : List Nat) (i : Nat) : List Nat :=
  [u.getD 1 0 ^^^ clefiaF0 (rks.getD (4 * i) 0) (u.getD 0 0),
   u.getD 2 0,
   u.getD 3 0 ^^^ clefiaF1 (rks.getD (4 * i + 1) 0) (u.getD 2 0),
   u.getD 4 0,
   u.getD 5 0 ^^^ clefiaF0 (rks.getD (4 * i + 2) 0) (u.getD 4 0),
   u.getD 6 0,
   u.getD 7 0 ^^^ clefiaF1 (rks.getD (4 * i + 3) 0) (u.getD 6 0),
   u.getD 0 0]

/-- Translation of `gfn8`: n rounds then a right rotation.  During the
256-bit key schedule the global `rk` holds `con256[0..39]`, so the
constants list is what `gfn8` reads. -/
def clefiaGfn8 (rks : List Nat) (x32 : List Nat) (n : Nat) : List Nat :=
  [((List.range n).foldl (clefiaGfn8Round rks) x32).getD 7 0,
   ((List.range n).foldl (clefiaGfn8Round rks) x32).getD 0 0,
   ((List.range n).foldl (clefiaGfn8Round rks) x32).getD 1 0,
   ((List.range n).foldl (clefiaGfn8Round rks) x32).getD 2 0,
   ((List.range n).foldl (clefiaGfn8Round rks) x32).getD 3 0,
   ((List.range n).foldl (clefiaGfn8Round rks) x32).getD 4 0,
   ((List.range n).foldl (clefiaGfn8Round rks) x32).getD 5 0,
   ((List.range n).foldl (clefiaGfn8Round rks) x32).getD 6 0]

/-- The module-level mutable state of clefia.py: `rk`, `wk`, `nr`. -/
structure ClefiaState where
  rk : List Nat
  wk : List Nat
  nr : Nat

/-- One iteration of the round-key derivation loop of `setKey256`; the
carried state is (ll, lr, round keys so far). -/
def clefiaScheduleRound (kl kr : List Nat) (st : List Nat × List Nat × List Nat)
    (i : Nat) : List Nat × List Nat × List Nat :=
  if i % 4 = 0 ∨ i % 4 = 1 then
    ((clefiaSigma st.1), st.2.1, st.2.2 ++
      (if i % 2 = 1 then
        (List.range 4).map (fun j =>
          (st.1.getD j 0 ^^^ clefiaCon256.getD (4 * i + 40 + j) 0) ^^^ kr.getD j 0)
      else
        (List.range 4).map (fun j =>
          st.1.getD j 0 ^^^ clefiaCon256.getD (4 * i + 40 + j) 0)))
  else
    (st.1, (clefiaSigma st.2.1), st.2.2 ++
      (if i % 2 = 1 then
        (List.range 4).map (fun j =>
          (st.2.1.getD j 0 ^^^ clefiaCon256.getD (4 * i + 40 + j) 0) ^^^ kl.getD j 0)
      else
        (List.range 4).map (fun j =>
          st.2.1.getD j 0 ^^^ clefiaCon256.getD (4 * i + 40 + j) 0)))

/-- Translation of `setKey(key, "SIZE_256")` and `setKey256`: the module
state that a `Clefia` constructor leaves behind (nr = 26, 52 round keys,
whitening keys `kl xor kr`). -/
def clefiaSetKey (key : Nat) : ClefiaState :=
  ⟨((List.range 13).foldl
      (clefiaScheduleRound ((clefia256To32 key).take 4) ((clefia256To32 key).drop 4))
      ((clefiaGfn8 clefiaCon256 (clefia256To32 key) 10).take 4,
       (clefiaGfn8 clefiaCon256 (clefia256To32 key) 10).drop 4, [])).2.2,
   (List.range 4).map (fun j =>
     ((clefia256To32 key).take 4).getD j 0 ^^^ ((clefia256To32 key).drop 4).getD j 0),
   26⟩

/-- Translation of `enc`: input whitening on branches 1 and 3, `gfn4` for
`nr` rounds, output whitening on branches 1 and 3. -/
def clefiaEnc (st : ClefiaState) (ptext : Nat) : Nat :=
  clefia32To128
    [(clefiaGfn4 st.rk
        [(clefia128To32 ptext).getD 0 0,
         (clefia128To32 ptext).getD 1 0 ^^^ st.wk.getD 0 0,
         (clefia128To32 ptext).getD 2 0,
         (clefia128To32 ptext).getD 3 0 ^^^ st.wk.getD 1 0] st.nr).getD 0 0,
     (clefiaGfn4 st.rk
        [(clefia128To32 ptext).getD 0 0,
         (clefia128To32 ptext).getD 1 0 ^^^ st.wk.getD 0 0,
         (clefia128To32 ptext).getD 2 0,
         (clefia128To32 ptext).getD 3 0 ^^^ st.wk.getD 1 0] st.nr).getD 1 0 ^^^
       st.wk.getD 2 0,
     (clefiaGfn4 st.rk
        [(clefia128To32 ptext).getD 0 0,
         (clefia128To32 ptext).getD 1 0 ^^^ st.wk.getD 0 0,
         (clefia128To32 ptext).getD 2 0,
         (clefia128To32 ptext).getD 3 0 ^^^ st.wk.getD 1 0] st.nr).getD 2 0,
     (clefiaGfn4 st.rk
        [(clefia128To32 ptext).getD 0 0,
         (clefia128To32 ptext).getD 1 0 ^^^ st.wk.getD 0 0,
         (clefia128To32 ptext).getD 2 0,
         (clefia128To32 ptext).getD 3 0 ^^^ st.wk.getD 1 0] st.nr).getD 3 0 ^^^
       st.wk.getD 3 0]

/-- C7 (violated by the code for CLEFIA): `setKey` overwrites the
module-level `rk`/`wk`/`nr` state that `enc` reads, and every `Clefia`
constructor calls `setKey`.  The first conjunct checks the embedding
against the spec's CLEFIA-256 test vector; the second shows that after a
second constructor runs with a different key (here the all-zero key), the
module state makes the first instance's encrypt produce a different
ciphertext for the same plaintext — the derived key schedule of a live
instance does not survive the construction of another instance. -/
theorem clefia_setKey_overwrites_shared_state :
    clefiaEnc
        (clefiaSetKey 0xffeeddccbbaa99887766554433221100f0e0d0c0b0a090807060504030201000)
        0x000102030405060708090a0b0c0d0e0f = 0xa1397814289de80c10da46d1fa48b38a ∧
    clefiaEnc (clefiaSetKey 0) 0x000102030405060708090a0b0c0d0e0f ≠
      0xa1397814289de80c10da46d1fa48b38a :=
  ⟨by decide, by decide⟩
